import Mathlib

/-!
Verification of the Pikachu/Onet game core (`server/game-logic.js` and
`server-io.js`): board model, constrained-turn path finder, the seven
collapse policies, and the room/session handlers.

Boards are embedded as `List (List (Option Nat))`, mirroring the JS
2-dimensional arrays whose cells hold `null` or a tile-type number.
Reading a cell out of range yields `none`, matching the JS behaviour
where both `null` and out-of-range `undefined` compare loosely equal to
`null` in every read site of the source.  Coordinates are `Int` because
the path finder steps positions by `±1` and relies on out-of-range
probes failing the `inBounds` test.
-/

namespace Pikachu

/-- `ROWS` from game-logic.js. -/
def ROWS : Int := 11
/-- `COLS` from game-logic.js. -/
def COLS : Int := 18
/-- `TYPE_COUNT` from game-logic.js. -/
def TYPE_COUNT : Nat := 33

/-- A board: rows of cells, each `null` (`none`) or a tile type. -/
abbrev Board := List (List (Option Nat))

/-- A position `{r, c}` as used throughout game-logic.js. -/
structure Pos where
  r : Int
  c : Int
deriving DecidableEq, Repr

/-- `inBounds(r, c)` from game-logic.js. -/
def inBounds (r c : Int) : Bool :=
  0 ≤ r && r < ROWS && 0 ≤ c && c < COLS

/-- Read `board[r][c]`; `none` models both JS `null` and the `undefined`
produced by an out-of-range index (the source only ever compares reads
against `null` with `==`/`===`, under which the two coincide at every
read site reached with an out-of-range index). -/
def cell (b : Board) (r c : Int) : Option Nat :=
  if 0 ≤ r ∧ 0 ≤ c then
    match b.get? r.toNat with
    | some row => (row.get? c.toNat).join
    | none => none
  else none

/-- Write `board[r][c] = v` (a write with an out-of-range index never
occurs in the modelled code paths; it is a no-op here). -/
def setCell (b : Board) (r c : Int) (v : Option Nat) : Board :=
  if 0 ≤ r ∧ 0 ≤ c then
    match b.get? r.toNat with
    | some row => b.set r.toNat (row.set c.toNat v)
    | none => b
  else b

/-- `level1(board, p)`: plain removal. -/
def level1 (b : Board) (p : Pos) : Board := setCell b p.r p.c none

/-- The body of `level2`'s `while (r < ROWS - 1)` loop (column, gap moves
downward). -/
def level2Go (b : Board) (c : Int) (r : Int) : Board :=
  if h : r < ROWS - 1 then
    if r + 1 < ROWS ∧ cell b (r + 1) c ≠ none then
      level2Go (setCell b r c (cell b (r + 1) c)) c (r + 1)
    else setCell b r c none
  else b
termination_by (ROWS - 1 - r).toNat
decreasing_by simp only [ROWS] at *; omega

/-- `level2(board, p)` from game-logic.js. -/
def level2 (b : Board) (p : Pos) : Board := level2Go b p.c p.r

/-- The body of `level3`'s `while (r > 0)` loop (column, gap moves
upward). -/
def level3Go (b : Board) (c : Int) (r : Int) : Board :=
  if h : 0 < r then
    if 0 ≤ r - 1 ∧ cell b (r - 1) c ≠ none then
      level3Go (setCell b r c (cell b (r - 1) c)) c (r - 1)
    else setCell b r c none
  else b
termination_by r.toNat
decreasing_by omega

/-- `level3(board, p)` from game-logic.js. -/
def level3 (b : Board) (p : Pos) : Board := level3Go b p.c p.r

/-- The body of `level4`'s `while (c > 0)` loop (row, gap moves
leftward). -/
def level4Go (b : Board) (r : Int) (c : Int) : Board :=
  if h : 0 < c then
    if 0 ≤ c - 1 ∧ cell b r (c - 1) ≠ none then
      level4Go (setCell b r c (cell b r (c - 1))) r (c - 1)
    else setCell b r c none
  else b
termination_by c.toNat
decreasing_by omega

/-- `level4(board, p)` from game-logic.js. -/
def level4 (b : Board) (p : Pos) : Board := level4Go b p.r p.c

/-- The body of `level5`'s `while (c < COLS - 1)` loop (row, gap moves
rightward). -/
def level5Go (b : Board) (r : Int) (c : Int) : Board :=
  if h : c < COLS - 1 then
    if c + 1 < COLS ∧ cell b r (c + 1) ≠ none then
      level5Go (setCell b r c (cell b r (c + 1))) r (c + 1)
    else setCell b r c none
  else b
termination_by (COLS - 1 - c).toNat
decreasing_by simp only [COLS] at *; omega

/-- `level5(board, p)` from game-logic.js. -/
def level5 (b : Board) (p : Pos) : Board := level5Go b p.r p.c

/-- The body of `level6`'s upper branch (`p.r < 5`, walk toward row 5). -/
def level6UpGo (b : Board) (c : Int) (r : Int) : Board :=
  if h : r ≤ 5 then
    if r + 1 ≤ 5 ∧ cell b (r + 1) c ≠ none then
      level6UpGo (setCell b r c (cell b (r + 1) c)) c (r + 1)
    else setCell b r c none
  else b
termination_by (6 - r).toNat
decreasing_by omega

/-- The body of `level6`'s lower branch (`p.r > 5`, walk toward row 5). -/
def level6DownGo (b : Board) (c : Int) (r : Int) : Board :=
  if h : 5 ≤ r then
    if 5 ≤ r - 1 ∧ cell b (r - 1) c ≠ none then
      level6DownGo (setCell b r c (cell b (r - 1) c)) c (r - 1)
    else setCell b r c none
  else b
termination_by (r - 4).toNat
decreasing_by omega

/-- `level6(board, p)` from game-logic.js: shift column toward row 5. -/
def level6 (b : Board) (p : Pos) : Board :=
  if p.r < 5 then level6UpGo b p.c p.r
  else if 5 < p.r then level6DownGo b p.c p.r
  else setCell b p.r p.c none

/-- The body of `level7`'s left branch (`p.c <= 8`, walk toward col 8). -/
def level7LeftGo (b : Board) (r : Int) (c : Int) : Board :=
  if h : c ≤ 8 then
    if c + 1 ≤ 8 ∧ cell b r (c + 1) ≠ none then
      level7LeftGo (setCell b r c (cell b r (c + 1))) r (c + 1)
    else setCell b r c none
  else b
termination_by (9 - c).toNat
decreasing_by omega

/-- The body of `level7`'s right branch (`p.c > 8`, walk toward col 8). -/
def level7RightGo (b : Board) (r : Int) (c : Int) : Board :=
  if h : 8 < c then
    if 8 < c - 1 ∧ cell b r (c - 1) ≠ none then
      level7RightGo (setCell b r c (cell b r (c - 1))) r (c - 1)
    else setCell b r c none
  else b
termination_by (c - 8).toNat
decreasing_by omega

/-- `level7(board, p)` from game-logic.js: shift row toward column 8. -/
def level7 (b : Board) (p : Pos) : Board :=
  if p.c ≤ 8 then level7LeftGo b p.r p.c
  else level7RightGo b p.r p.c

/-- `applyLevel(board, level, a, b)` from game-logic.js, with the exact
pair-processing order of each `case`. -/
def applyLevel (b : Board) (level : Nat) (a p : Pos) : Board :=
  match level with
  | 1 => level1 (level1 b a) p
  | 2 => if a.r < p.r then level2 (level2 b p) a else level2 (level2 b a) p
  | 3 => if a.r < p.r then level3 (level3 b a) p else level3 (level3 b p) a
  | 4 => if a.c < p.c then level4 (level4 b a) p else level4 (level4 b p) a
  | 5 => if a.c < p.c then level5 (level5 b p) a else level5 (level5 b a) p
  | 6 =>
    if 5 < a.r ∧ 5 < p.r then
      if a.r < p.r then level6 (level6 b a) p else level6 (level6 b p) a
    else
      if a.r < p.r then level6 (level6 b p) a else level6 (level6 b a) p
  | 7 =>
    if 8 < a.c ∧ 8 < p.c then
      if a.c < p.c then level7 (level7 b a) p else level7 (level7 b p) a
    else
      if a.c < p.c then level7 (level7 b p) a else level7 (level7 b a) p
  | _ => level1 (level1 b a) p

/-- The interior index ranges walked by the `for` loops of
`boardCleared`, `hasAnyMove` and `rerandomRemaining`:
`r = 1 .. ROWS-2` and `c = 1 .. COLS-2`. -/
def intRange (lo : Int) (n : Nat) : List Int :=
  (List.range n).map (fun (i : Nat) => lo + (i : Int))

/-- `boardCleared(board)` from game-logic.js: every interior cell null
(the loops return `false` at the first non-null interior cell). -/
def boardCleared (b : Board) : Bool :=
  (intRange 1 9).all fun r => (intRange 1 16).all fun c =>
    cell b r c == none

/-! ## The constrained-turn path finder (`findPathLimitedTurns`)

Search nodes carry position, incoming direction `d` (an index into the
`dirs` array), accumulated turn count `t` and the parent link used for
path reconstruction.  A JS node with `parent: null` (a seed) is `root`,
any other node is `child`. -/

/-- A node of the search queue of `findPathLimitedTurns`. -/
inductive Node where
  | root (r c : Int) (d t : Nat)
  | child (r c : Int) (d t : Nat) (parent : Node)

namespace Node

def r : Node → Int | root r _ _ _ => r | child r _ _ _ _ => r
def c : Node → Int | root _ c _ _ => c | child _ c _ _ _ => c
def d : Node → Nat | root _ _ d _ => d | child _ _ d _ _ => d
def t : Node → Nat | root _ _ _ t => t | child _ _ _ t _ => t

/-- `node.parent` is `null`. -/
def isSeed : Node → Bool | root _ _ _ _ => true | child _ _ _ _ _ => false

end Node

/-- `dirs[d].dr` for the array `[{-1,0},{1,0},{0,-1},{0,1}]`. -/
def dr (d : Nat) : Int := match d with | 0 => -1 | 1 => 1 | _ => 0

/-- `dirs[d].dc` for the array `[{-1,0},{1,0},{0,-1},{0,1}]`. -/
def dc (d : Nat) : Int := match d with | 2 => -1 | 3 => 1 | _ => 0

/-- Read digit `i` of `v` in base `B`: the `i`-th entry of a dense array
of small numbers packed into one natural number. -/
def natDigitGet (B v i : Nat) : Nat := v / B ^ i % B

/-- Write digit `i` of `v` in base `B` to `x` (with `x < B`): keep the
digits below `i`, replace digit `i`, keep the digits above `i`. -/
def natDigitSet (B v i x : Nat) : Nat :=
  v % B ^ i + x * B ^ i + v / B ^ (i + 1) * B ^ (i + 1)

/-- The linear index of grid cell `(r, c)` (callers establish
`inBounds r c`, so `r.toNat < 11` and `c.toNat < 18`). -/
def cellIdx (r c : Int) : Nat := r.toNat * 18 + c.toNat

/-- The linear index of search state `(r, c, d)`. -/
def stateIdx (r c : Int) (d : Nat) : Nat := cellIdx r c * 4 + d

/-- The `visited` array of `findPathLimitedTurns`: an 11 × 18 × 4 array
of turn counts, stored densely as the base-`(maxTurns+2)` digits of one
natural number.  JS initialises every entry to `Infinity` and only ever
(a) lowers an entry to some `nt ≤ maxTurns` and (b) compares entries
against such `nt` with `>`; the sentinel `maxTurns + 1` (the largest
digit) therefore behaves identically to `Infinity`. -/
def initVisited (maxTurns : Nat) : Nat := (maxTurns + 2) ^ (11 * 18 * 4) - 1

/-- Read `visited[r][c][d]`. -/
def vGet (maxTurns v : Nat) (r c : Int) (d : Nat) : Nat :=
  natDigitGet (maxTurns + 2) v (stateIdx r c d)

/-- Write `visited[r][c][d] = val`. -/
def vSet (maxTurns v : Nat) (r c : Int) (d : Nat) (val : Nat) : Nat :=
  natDigitSet (maxTurns + 2) v (stateIdx r c d) val

/-- `canPass(r, c)` from `findPathLimitedTurns`: in bounds, and either
the goal cell (exempt from the emptiness check) or an empty cell. -/
def canPass (b : Board) (goal : Pos) (r c : Int) : Bool :=
  if ¬ inBounds r c then false
  else if r = goal.r ∧ c = goal.c then true
  else cell b r c == none

/-- The graph of the pure closure `canPass`, tabulated over the grid as
a bit per cell (the board is immutable for the duration of one search,
so reading the tabulated bit is the same function as calling the
closure; `canPassB_eq_canPass` below proves it). -/
def passMask (b : Board) (goal : Pos) : Nat :=
  (List.range 198).foldl
    (fun m i =>
      if canPass b goal ((i / 18 : Nat) : Int) ((i % 18 : Nat) : Int) then
        natDigitSet 2 m i 1
      else m) 0

/-- `canPass(r, c)` read from the tabulated mask (consulted only after
an `inBounds` check, exactly like the JS call site). -/
def canPassB (mask : Nat) (r c : Int) : Bool :=
  natDigitGet 2 mask (cellIdx r c) == 1

/-- The state advanced by the search loop: `visited`, the FIFO queue
(`q.shift()` pops the head, `q.push` appends) and `endNode`. -/
abbrev SearchState := Nat × List Node × Option Node

/-- The inner `while (inBounds(nr, nc) && canPass(nr, nc))` ray walk of
`findPathLimitedTurns`: cast from `(nr, nc)` in direction `nd` at turn
count `nt`, updating `visited`, appending improved cells to the queue,
and, on pushing the goal, recording `endNode` and emptying the queue
(`q.length = 0`).  Walk length is bounded by the grid (≤ 29 in-bounds
steps), so a fuel of 36 is never exhausted. -/
def rayWalk (mask : Nat) (goal : Pos) (maxTurns : Nat) (nd : Nat) (nt : Nat)
    (parent : Node) :
    Nat → Nat → List Node → Int → Int → SearchState
  | 0, v, q, _, _ => (v, q, none)
  | fuel + 1, v, q, nr, nc =>
    if inBounds nr nc ∧ canPassB mask nr nc then
      if nt < vGet maxTurns v nr nc nd then
        let v' := vSet maxTurns v nr nc nd nt
        let node : Node := .child nr nc nd nt parent
        let q' := q ++ [node]
        if nr = goal.r ∧ nc = goal.c then (v', [], some node)
        else rayWalk mask goal maxTurns nd nt parent fuel v' q'
          (nr + dr nd) (nc + dc nd)
      else rayWalk mask goal maxTurns nd nt parent fuel v q
        (nr + dr nd) (nc + dc nd)
    else (v, q, none)

/-- One direction `nd` of the `for (let nd = 0; nd < 4; nd++)` loop over
a popped node: skipped entirely once `endNode` is set (`if (endNode)
break`), skipped when `nt > maxTurns`, otherwise a ray walk. -/
def expandDir (mask : Nat) (goal : Pos) (maxTurns : Nat) (node : Node)
    (nd : Nat) : SearchState → SearchState
  | (v, q, e) =>
    match e with
    | some eN => (v, q, some eN)
    | none =>
      let turnCost : Nat := if nd = node.d then 0 else 1
      let nt := node.t + (if node.isSeed then 0 else turnCost)
      if maxTurns < nt then (v, q, none)
      else rayWalk mask goal maxTurns nd nt node 36 v q
        (node.r + dr nd) (node.c + dc nd)

/-- Processing of one popped node: the four directions in order. -/
def processNode (mask : Nat) (goal : Pos) (maxTurns : Nat) (v : Nat)
    (rest : List Node) (node : Node) : SearchState :=
  expandDir mask goal maxTurns node 3 (expandDir mask goal maxTurns node 2
    (expandDir mask goal maxTurns node 1 (expandDir mask goal maxTurns node 0
      (v, rest, none))))

/-- The outer `while (q.length)` loop.  The fuel argument only bounds
iteration (each iteration strictly decreases twice the digit sum of
`visited` plus `q.length`); it is provably never exhausted from the
seeded initial state. -/
def searchLoop (mask : Nat) (goal : Pos) (maxTurns : Nat) :
    Nat → Nat → List Node → Option Node
  | 0, _, _ => none
  | fuel + 1, v, q =>
    match q with
    | [] => none
    | n :: rest =>
      match processNode mask goal maxTurns v rest n with
      | (_, _, some eN) => some eN
      | (v', q', none) => searchLoop mask goal maxTurns fuel v' q'

/-- The `while (node.parent)` reconstruction loop: walk parent links,
emitting the parent's position whenever its direction differs from
`lastDir` (`revPoints` accumulates by `push`, i.e. appends). -/
def reconstructGo : Node → Nat → List Pos → List Pos
  | .root _ _ _ _, _, acc => acc
  | .child _ _ _ _ p, lastDir, acc =>
    if p.d ≠ lastDir then reconstructGo p p.d (acc ++ [⟨p.r, p.c⟩])
    else reconstructGo p lastDir acc

/-- Fuel sufficient for the outer loop from the seeded initial state:
each loop iteration strictly decreases `2·(digit sum of visited) +
q.length`, which starts at `2·(11·18·4)·(maxTurns+1) + 4` at most. -/
def searchFuel (maxTurns : Nat) : Nat := 2 * (11 * 18 * 4) * (maxTurns + 1) + 8

/-- `findPathLimitedTurns(board, start, goal, maxTurns)`: seed all four
directions from `start` at cost 0, run the search, and on success
reconstruct the corner-point list (ending with `start`, then reversed to
start-to-goal order). -/
def findPathLimitedTurns (b : Board) (start goal : Pos) (maxTurns : Nat) :
    Option (List Pos) :=
  let mask := passMask b goal
  let v0 := (List.range 4).foldl (fun v d => vSet maxTurns v start.r start.c d 0)
    (initVisited maxTurns)
  let q0 : List Node := (List.range 4).map (fun d => .root start.r start.c d 0)
  match searchLoop mask goal maxTurns (searchFuel maxTurns) v0 q0 with
  | none => none
  | some e =>
    some ((reconstructGo e e.d [⟨e.r, e.c⟩] ++ [start]).reverse)

/-! ## `hasAnyMove` and `rerandomRemaining` -/

/-- The row-major list of interior positions holding tile type `t`
(`positionsByType[t]` in `hasAnyMove`). -/
def tilePositions (b : Board) (t : Nat) : List Pos :=
  (intRange 1 9).flatMap fun r => (intRange 1 16).filterMap fun c =>
    if cell b r c = some t then some ⟨r, c⟩ else none

/-- The `for (i) for (j = i+1)` pair scan of `hasAnyMove` over one
type's position list. -/
def anyPairPath (b : Board) : List Pos → Bool
  | [] => false
  | p :: rest =>
    rest.any (fun q => (findPathLimitedTurns b p q 2).isSome)
      || anyPairPath b rest

/-- `hasAnyMove(board)` from game-logic.js. -/
def hasAnyMove (b : Board) : Bool :=
  (List.range TYPE_COUNT).any fun t => anyPairPath b (tilePositions b t)

/-- The row-major list of occupied interior positions (`positions` in
`rerandomRemaining`). -/
def occupiedPositions (b : Board) : List Pos :=
  (intRange 1 9).flatMap fun r => (intRange 1 16).filterMap fun c =>
    if cell b r c ≠ none then some ⟨r, c⟩ else none

/-- The row-major list of non-null interior values. -/
def interiorValues (b : Board) : List Nat :=
  (intRange 1 9).flatMap fun r => (intRange 1 16).filterMap fun c =>
    cell b r c

/-- The sorted bag rebuilt from per-type counts in `rerandomRemaining`
(`for t: for k < counts[t]: bag.push(t)`). -/
def remainingBag (b : Board) : List Nat :=
  (List.range TYPE_COUNT).flatMap fun t =>
    List.replicate ((interiorValues b).count t) t

/-- Exchange `[l[i], l[j]] = [l[j], l[i]]` (both indices are in range at
every call site reached by the modelled code). -/
def listSwap (l : List Nat) (i j : Nat) : List Nat :=
  match l.get? i, l.get? j with
  | some a, some b => (l.set i b).set j a
  | _, _ => l

/-- The Fisher–Yates loop `for (i = len-1; i > 0; i--) swap(i, js i)`,
parameterised by the stream `js` of drawn indices (JS draws
`Math.floor(Math.random() * (i + 1)) ∈ [0, i]`). -/
def fyGo (js : Nat → Nat) : Nat → List Nat → List Nat
  | 0, l => l
  | i + 1, l => fyGo js i (listSwap l (i + 1) (js (i + 1)))

/-- A Fisher–Yates shuffle of `l` under index stream `js`. -/
def fisherYates (js : Nat → Nat) (l : List Nat) : List Nat :=
  fyGo js (l.length - 1) l

/-- `rerandomRemaining(board)` from game-logic.js, parameterised by the
random index stream `js` of its shuffle: count and clear the non-null
interior cells, rebuild the bag sorted by type, shuffle it, and write
`bag[i]` back at the `i`-th previously occupied position (the JS single
pass that counts, clears and collects reads each cell before clearing
it, so staging the scan before the clear is equivalent). -/
def rerandomRemaining (b : Board) (js : Nat → Nat) : Board :=
  let positions := occupiedPositions b
  let bag := fisherYates js (remainingBag b)
  let cleared := positions.foldl (fun bb p => setCell bb p.r p.c none) b
  positions.enum.foldl (fun bb ip => setCell bb ip.2.r ip.2.c (bag.get? ip.1))
    cleared

/-! ## `makeInitialBoard` -/

/-- The generation bag: 6 copies of each of the first 6 types, 4 copies
of the rest (length `6·6 + 27·4 = 144`, exactly the interior size). -/
def initialBag : List Nat :=
  (List.range TYPE_COUNT).flatMap fun i =>
    List.replicate (if i < 6 then 6 else 4) i

/-- `makeInitialBoard()` from game-logic.js, parameterised by the random
index stream of its shuffle: an 11 × 18 grid, `null` on the border, and
the shuffled bag laid out row-major across the interior (`idx` for
interior `(r, c)` is `(r-1)·16 + (c-1)`). -/
def makeInitialBoard (js : Nat → Nat) : Board :=
  let bag := fisherYates js initialBag
  (List.range 11).map fun r => (List.range 18).map fun c =>
    if 1 ≤ r ∧ r ≤ 9 ∧ 1 ≤ c ∧ c ≤ 16 then bag.get? ((r - 1) * 16 + (c - 1))
    else none

/-! ## Spec-side predicates and definitions -/

/-- An interior position: rows `1..ROWS-2`, columns `1..COLS-2`. -/
def interiorPos (p : Pos) : Prop :=
  1 ≤ p.r ∧ p.r ≤ 9 ∧ 1 ≤ p.c ∧ p.c ≤ 16

instance (p : Pos) : Decidable (interiorPos p) := by
  unfold interiorPos; infer_instance

/-- A border cell: in the grid, on row 0, the last row, column 0 or the
last column. -/
def isBorder (r c : Int) : Prop :=
  inBounds r c ∧ (r = 0 ∨ r = 10 ∨ c = 0 ∨ c = 17)

instance (r c : Int) : Decidable (isBorder r c) := by
  unfold isBorder; infer_instance

/-- The row-major list of all interior positions, the cells visited by
the interior scan loops. -/
def interiorCells : List Pos :=
  (intRange 1 9).flatMap fun r => (intRange 1 16).map fun c => ⟨r, c⟩

/-- `p` addresses an existing entry of the 2-dimensional array `b`, so
that a JS write `b[p.r][p.c] = v` lands on an actual cell. -/
def validCell (b : Board) (p : Pos) : Prop :=
  (0 ≤ p.r ∧ 0 ≤ p.c) ∧
    ∃ row, b.get? p.r.toNat = some row ∧ p.c.toNat < row.length

/-- The dispatch from a level number to its single-position collapse
function (levels outside `1..7` fall back to `level1`, as the `default`
case of `applyLevel` does). -/
def levelFun : Nat → Board → Pos → Board
  | 1, b, p => level1 b p
  | 2, b, p => level2 b p
  | 3, b, p => level3 b p
  | 4, b, p => level4 b p
  | 5, b, p => level5 b p
  | 6, b, p => level6 b p
  | 7, b, p => level7 b p
  | _, b, p => level1 b p

/-- Modelled from the spec's ordering rule for the two single-position
collapses of a move (§4.3): the tile farther from the destination toward
which the displaced tiles shift is processed first — for the downward
(2) and rightward (5) policies that is the position with the larger
row (resp. column) coordinate; for the upward (3) and leftward (4)
policies the smaller coordinate; for the center-biased policies (6, 7)
the rule additionally branches on which side of the center (row 5 /
column 8) the positions lie: both strictly beyond the center gives
smaller-coordinate-first, otherwise larger-coordinate-first.  Ties
(equal coordinates), which the spec's comparative wording leaves
unconstrained, are resolved as the source resolves them. -/
def collapseFirstSecond (level : Nat) (a p : Pos) : Pos × Pos :=
  match level with
  | 2 => if a.r < p.r then (p, a) else (a, p)
  | 3 => if a.r < p.r then (a, p) else (p, a)
  | 4 => if a.c < p.c then (a, p) else (p, a)
  | 5 => if a.c < p.c then (p, a) else (a, p)
  | 6 =>
    if 5 < a.r ∧ 5 < p.r then
      if a.r < p.r then (a, p) else (p, a)
    else
      if a.r < p.r then (p, a) else (a, p)
  | 7 =>
    if 8 < a.c ∧ 8 < p.c then
      if a.c < p.c then (a, p) else (p, a)
    else
      if a.c < p.c then (p, a) else (a, p)
  | _ => (a, p)

/-! ## The socket.io server layer (server-io.js)

JavaScript `Map`s are modelled as association lists in insertion order:
`Map.get` is the first entry with the key, `Map.set` overwrites an
existing key in place and otherwise appends, `Map.delete` removes the
key.  A `Timeout` handle is opaque to the handlers, so a room's
`disconnectTimers` map is modelled by its key list (`clearTimeout` has
no observable effect beyond the deletion).  Socket-level operations
(`socket.join`, `socket.leave`, `io.to(..).emit`) either have no effect
on server state or are recorded as emitted events; broadcast payloads
are projected to the fields the claims speak about. -/

/-- `m.get(k)` on a JS `Map` modelled as an association list. -/
def assocGet {α : Type} (m : List (String × α)) (k : String) : Option α :=
  (m.find? fun kv => kv.1 == k).map (·.2)

/-- `m.set(k, v)`: overwrite an existing key in place, else append. -/
def assocSet {α : Type} (m : List (String × α)) (k : String) (v : α) :
    List (String × α) :=
  if m.any (fun kv => kv.1 == k) then
    m.map fun kv => if kv.1 == k then (k, v) else kv
  else m ++ [(k, v)]

/-- `m.delete(k)`. -/
def assocDel {α : Type} (m : List (String × α)) (k : String) :
    List (String × α) :=
  m.filter fun kv => kv.1 != k

/-- `room.state`: `'lobby' | 'in_progress' | 'ended'`. -/
inductive RoomState where
  | lobby
  | in_progress
  | ended
deriving DecidableEq, Repr

/-- One entry of `room.players`: `{ id, name, score, connected,
socketId? }` (absent `socketId` is `none`). -/
structure Player where
  id : String
  name : String
  score : Nat
  connected : Bool
  socketId : Option String
deriving DecidableEq, Repr

/-- A room: `{ id, hostId, players, disconnectTimers, state, board,
level }`.  A lobby room's `board: null` is never read by the handlers
modelled here, so `board` is kept total (`[]` stands for `null`). -/
structure Room where
  id : String
  hostId : String
  players : List (String × Player)
  disconnectTimers : List String
  state : RoomState
  board : Board
  level : Nat
deriving DecidableEq, Repr

/-- The module-level mutable state the modelled handlers touch:
`rooms` and `clientToRoom` (the leaderboard is passed separately where
a handler uses it). -/
structure ServerState where
  rooms : List (String × Room)
  clientToRoom : List (String × String)
deriving DecidableEq, Repr

/-- A broadcast observable by the room, projected to the fields the
claims speak about. -/
inductive Event where
  | playerRejoined (id : String)
  | playerJoined (id : String)
  | playerLeft (id : String)
  | playerDisconnected (id : String)
  | roomClosed
  | matched (a b : Pos) (path : List Pos) (board : Board)
  | gameEnded
  | shuffled (board : Board)
deriving DecidableEq, Repr

/-- An acknowledgment callback value: `{ ok: true, ... }` or
`{ ok: false, error }`. -/
inductive Ack where
  | ok
  | fail (error : String)
deriving DecidableEq, Repr

/-- `globalLeaderboard.set(name, (globalLeaderboard.get(name) || 0) +
pts)`. -/
def bumpLeaderboard (lb : List (String × Nat)) (name : String) (pts : Nat) :
    List (String × Nat) :=
  assocSet lb name ((assocGet lb name).getD 0 + pts)

/-- The `const player = room.players.get(clientId); if (player) { ... }`
block of `game:move`: `+10` to the mover's score and to the global
leaderboard under the mover's name, or nothing when the mover is not in
the room's player map. -/
def scoreUpdate (players : List (String × Player)) (cid : String)
    (lb : List (String × Nat)) :
    List (String × Player) × List (String × Nat) :=
  match assocGet players cid with
  | some p =>
    (assocSet players cid { p with score := p.score + 10 },
     bumpLeaderboard lb p.name 10)
  | none => (players, lb)

/-- The `game:move` handler, from the `rooms.get(roomId)` lookup result
on: reject when the room is missing, not `in_progress`, a coordinate is
absent (`!a || !b`), the board is already cleared, the two cells are not
equal non-null values, or no ≤2-turn path exists; otherwise apply the
level collapse (`room.level || 1`), add 10 points for a mover present in
the player map, and either end the game (board cleared, level advances
`(level % 7) + 1`), just broadcast the match, or — when no move remains
— reshuffle once and broadcast the reshuffled board.  `js` is the
random index stream of that reshuffle.  Returns (ack, updated room,
updated global leaderboard, broadcasts in emission order). -/
def gameMove (js : Nat → Nat) (roomQ : Option Room) (clientId : String)
    (a b : Option Pos) (lb : List (String × Nat)) :
    Ack × Option Room × List (String × Nat) × List Event :=
  match roomQ with
  | none => (Ack.fail "Room not found", none, lb, [])
  | some room =>
    if room.state ≠ RoomState.in_progress then
      (Ack.fail "Game not in progress", some room, lb, [])
    else
      match a, b with
      | some pa, some pb =>
        if boardCleared room.board then
          (Ack.fail "Board already cleared", some room, lb, [])
        else
          let v1 := cell room.board pa.r pa.c
          let v2 := cell room.board pb.r pb.c
          if v1 = none ∨ v2 = none ∨ v1 ≠ v2 then
            (Ack.fail "Not matchable", some room, lb, [])
          else
            match findPathLimitedTurns room.board pa pb 2 with
            | none => (Ack.fail "No path", some room, lb, [])
            | some path =>
              let board1 :=
                applyLevel room.board
                  (if room.level = 0 then 1 else room.level) pa pb
              let pl := scoreUpdate room.players clientId lb
              if boardCleared board1 then
                (Ack.ok,
                 some { room with
                        board := board1, players := pl.1,
                        state := RoomState.ended,
                        level := room.level % 7 + 1 },
                 pl.2,
                 [Event.matched pa pb path board1, Event.gameEnded])
              else if hasAnyMove board1 then
                (Ack.ok,
                 some { room with board := board1, players := pl.1 },
                 pl.2,
                 [Event.matched pa pb path board1])
              else
                let board2 := rerandomRemaining board1 js
                (Ack.ok,
                 some { room with board := board2, players := pl.1 },
                 pl.2,
                 [Event.matched pa pb path board1, Event.shuffled board2])
      | _, _ => (Ack.fail "Invalid coords", some room, lb, [])

/-- The `user:joinRoom` handler.  `name` is `none` when the request's
`name` field is absent or falsy (`if (name)`).  After the room lookup:
leave a different previous room first (delete from its players and
timers, broadcast `room:playerLeft`, clear the `clientToRoom` entry);
then either update an existing player entry in place — `connected =
true`, new socket id, name overwritten only when given, pending
disconnect timer cancelled — or append a fresh entry; finally point
`clientToRoom` at the room. -/
def joinRoom (st : ServerState) (clientId socketId roomId : String)
    (name : Option String) : ServerState × Ack × List Event :=
  match assocGet st.rooms roomId with
  | none => (st, Ack.fail "Room not found", [])
  | some room =>
    let prevLeave : ServerState × List Event :=
      match assocGet st.clientToRoom clientId with
      | some prevId =>
        if prevId ≠ roomId then
          let stp :=
            match assocGet st.rooms prevId with
            | some prev =>
              if (assocGet prev.players clientId).isSome then
                ({ st with
                   rooms := assocSet st.rooms prevId
                     { prev with
                       players := assocDel prev.players clientId,
                       disconnectTimers :=
                         prev.disconnectTimers.filter (fun k => k != clientId) } },
                 [Event.playerLeft clientId])
              else (st, [])
            | none => (st, [])
          ({ stp.1 with clientToRoom := assocDel stp.1.clientToRoom clientId },
           stp.2)
        else (st, [])
      | none => (st, [])
    let st1 := prevLeave.1
    match assocGet room.players clientId with
    | some player =>
      let player1 : Player :=
        { player with
          connected := true, socketId := some socketId,
          name := name.getD player.name }
      let room1 := { room with players := assocSet room.players clientId player1 }
      let room2 :=
        if room1.disconnectTimers.contains clientId then
          { room1 with disconnectTimers :=
              room1.disconnectTimers.filter (fun k => k != clientId) }
        else room1
      ({ st1 with
          rooms := assocSet st1.rooms roomId room2,
          clientToRoom := assocSet st1.clientToRoom clientId roomId },
       Ack.ok, prevLeave.2 ++ [Event.playerRejoined clientId])
    | none =>
      let p : Player :=
        { id := clientId, name := name.getD "Player", score := 0,
          connected := true, socketId := some socketId }
      let room1 := { room with players := assocSet room.players clientId p }
      ({ st1 with
          rooms := assocSet st1.rooms roomId room1,
          clientToRoom := assocSet st1.clientToRoom clientId roomId },
       Ack.ok, prevLeave.2 ++ [Event.playerJoined clientId])

/-- The body of the `setTimeout` callback scheduled by the `disconnect`
handler; `roomId`, `clientId` and `wasHost` are the values captured by
the closure at disconnect time.  Guards at fire time: the room must
still exist, the player entry must still be present and still marked
disconnected; then the player is removed and, when the disconnecting
client was host, the room is broadcast as closed, every remaining
member's `clientToRoom` entry is cleared and the room is deleted. -/
def fireDisconnectTimer (st : ServerState) (roomId clientId : String)
    (wasHost : Bool) : ServerState × List Event :=
  match assocGet st.rooms roomId with
  | none => (st, [])
  | some still =>
    match assocGet still.players clientId with
    | none => (st, [])
    | some p =>
      if p.connected then (st, [])
      else
        let still1 := { still with players := assocDel still.players clientId }
        let st1 : ServerState :=
          { st with
            rooms := assocSet st.rooms roomId still1,
            clientToRoom := assocDel st.clientToRoom clientId }
        if wasHost then
          ({ st1 with
             clientToRoom := still1.players.foldl
               (fun m kv => assocDel m kv.1) st1.clientToRoom,
             rooms := assocDel st1.rooms roomId },
           [Event.roomClosed])
        else
          (st1, [Event.playerLeft clientId])

/-- A concrete full-interior board (the 9 x 16 interior fully occupied,
values drawn evenly per type) whose only connectable pair is the two
16-tiles at (5,7) and (5,8): every other same-type pair is blocked for
2 turns. -/
def deadlockPre : Board :=
  [[none, none, none, none, none, none, none, none, none, none, none, none, none, none, none, none, none, none],
   [none, some 0, some 1, some 2, some 3, some 4, some 5, some 6, some 7, some 8, some 9, some 10, some 11, some 12, some 13, some 14, some 15, none],
   [none, some 1, some 18, some 25, some 26, some 32, some 16, some 28, some 20, some 26, some 18, some 22, some 29, some 27, some 16, some 24, some 8, none],
   [none, some 2, some 21, some 20, some 0, some 30, some 17, some 16, some 31, some 19, some 32, some 26, some 21, some 22, some 24, some 17, some 9, none],
   [none, some 3, some 20, some 19, some 16, some 24, some 20, some 32, some 26, some 27, some 30, some 16, some 23, some 30, some 19, some 23, some 10, none],
   [none, some 4, some 31, some 17, some 30, some 28, some 25, some 16, some 16, some 19, some 25, some 17, some 19, some 32, some 18, some 29, some 11, none],
   [none, some 5, some 19, some 21, some 18, some 20, some 16, some 24, some 23, some 18, some 23, some 20, some 22, some 27, some 29, some 31, some 12, none],
   [none, some 6, some 22, some 31, some 30, some 26, some 29, some 19, some 28, some 24, some 21, some 18, some 15, some 22, some 17, some 18, some 13, none],
   [none, some 7, some 17, some 29, some 20, some 27, some 17, some 25, some 23, some 28, some 32, some 21, some 25, some 31, some 28, some 27, some 14, none],
   [none, some 27, some 31, some 22, some 18, some 26, some 19, some 20, some 28, some 30, some 24, some 25, some 21, some 17, some 23, some 32, some 29, none],
   [none, none, none, none, none, none, none, none, none, none, none, none, none, none, none, none, none, none]]

/-- `deadlockPre` after removing the matched pair (5,7)-(5,8): 142
tiles remain and no ≤2-turn connection exists between any same-type
pair. -/
def deadlockPost : Board :=
  [[none, none, none, none, none, none, none, none, none, none, none, none, none, none, none, none, none, none],
   [none, some 0, some 1, some 2, some 3, some 4, some 5, some 6, some 7, some 8, some 9, some 10, some 11, some 12, some 13, some 14, some 15, none],
   [none, some 1, some 18, some 25, some 26, some 32, some 16, some 28, some 20, some 26, some 18, some 22, some 29, some 27, some 16, some 24, some 8, none],
   [none, some 2, some 21, some 20, some 0, some 30, some 17, some 16, some 31, some 19, some 32, some 26, some 21, some 22, some 24, some 17, some 9, none],
   [none, some 3, some 20, some 19, some 16, some 24, some 20, some 32, some 26, some 27, some 30, some 16, some 23, some 30, some 19, some 23, some 10, none],
   [none, some 4, some 31, some 17, some 30, some 28, some 25, none, none, some 19, some 25, some 17, some 19, some 32, some 18, some 29, some 11, none],
   [none, some 5, some 19, some 21, some 18, some 20, some 16, some 24, some 23, some 18, some 23, some 20, some 22, some 27, some 29, some 31, some 12, none],
   [none, some 6, some 22, some 31, some 30, some 26, some 29, some 19, some 28, some 24, some 21, some 18, some 15, some 22, some 17, some 18, some 13, none],
   [none, some 7, some 17, some 29, some 20, some 27, some 17, some 25, some 23, some 28, some 32, some 21, some 25, some 31, some 28, some 27, some 14, none],
   [none, some 27, some 31, some 22, some 18, some 26, some 19, some 20, some 28, some 30, some 24, some 25, some 21, some 17, some 23, some 32, some 29, none],
   [none, none, none, none, none, none, none, none, none, none, none, none, none, none, none, none, none, none]]

/-- A legal draw sequence for the Fisher-Yates shuffle of
`rerandomRemaining` on `deadlockPost` (each entry at index `i` is at
most `i`) under which the shuffle reproduces `deadlockPost` itself. -/
def deadlockStream : List Nat :=
  [0, 0, 0, 2, 0, 4, 6, 2, 0, 8, 0, 4, 10, 6, 6, 2, 2, 12, 14, 8, 12, 0, 0, 4, 6, 10, 22, 18, 18, 24, 18, 16, 4, 12, 12, 0, 26, 24, 35, 8, 30, 18, 6, 12, 22, 24, 44, 18, 6, 30, 22, 34, 20, 10, 26, 26, 26, 46, 33, 49, 22, 59, 14, 20, 8, 55, 43, 10, 32, 30, 58, 28, 42, 57, 12, 51, 10, 22, 10, 56, 73, 50, 65, 32, 14, 49, 49, 84, 64, 79, 14, 63, 41, 24, 12, 78, 38, 28, 30, 62, 55, 39, 89, 72, 48, 30, 77, 41, 47, 26, 14, 40, 38, 63, 108, 39, 96, 83, 114, 38, 71, 95, 62, 113, 107, 28, 106, 54, 76, 46, 100, 54, 62, 112, 124, 88, 94, 70, 38, 82, 118, 118]

/-- `deadlockStream` as an index stream. -/
def dlJs (i : Nat) : Nat := deadlockStream.getD i 0

/-- The host player of the concrete deadlock scenario. -/
def dlHost : Player :=
  { id := "h", name := "H", score := 0, connected := true,
    socketId := some "s" }

/-- A one-player `in_progress` room holding `deadlockPre` at level 1. -/
def deadlockRoom : Room :=
  { id := "R", hostId := "h", players := [("h", dlHost)],
    disconnectTimers := [], state := RoomState.in_progress,
    board := deadlockPre, level := 1 }

/-- `deadlockRoom` after the move (5,7)-(5,8) and the deadlock
reshuffle: the board is `deadlockPost` (the reshuffle reproduced it)
and the host scored 10. -/
def deadlockRoomAfter : Room :=
  { id := "R", hostId := "h",
    players := [("h", { dlHost with score := 10 })],
    disconnectTimers := [], state := RoomState.in_progress,
    board := deadlockPost, level := 1 }

/-- A small board exercising the rejection branches of `gameMove`: the
1-tile at (1,1) is walled in by 9-tiles, its partner sits at (3,2). -/
def rejBoard : Board :=
  [[some 9, some 9, some 9],
   [some 9, some 1, some 9],
   [some 9, some 9, some 9],
   [none, none, some 1]]

/-- An `in_progress` room holding `rejBoard`. -/
def rejRoom : Room :=
  { id := "r", hostId := "h", players := [], disconnectTimers := [],
    state := RoomState.in_progress, board := rejBoard, level := 1 }

/-- `rejRoom` still in the lobby. -/
def rejRoomLobby : Room := { rejRoom with state := RoomState.lobby }

/-- `rejRoom` with an all-null board. -/
def rejRoomCleared : Room := { rejRoom with board := [[none]] }

/-- The in-place update the `user:joinRoom` handler applies to an
existing player entry: reconnect, adopt the new socket, overwrite the
name only when one was given. -/
def rejoinPlayer (player : Player) (sid : String) (nm : Option String) :
    Player :=
  { player with
    connected := true, socketId := some sid,
    name := nm.getD player.name }

/-- The room after the rejoin branch of `user:joinRoom`: player entry
updated in place, pending disconnect timer (if any) cancelled. -/
def rejoinRoom (room : Room) (cid sid : String) (nm : Option String)
    (player : Player) : Room :=
  let room1 :=
    { room with players := assocSet room.players cid (rejoinPlayer player sid nm) }
  if room1.disconnectTimers.contains cid then
    { room1 with disconnectTimers :=
        room1.disconnectTimers.filter (fun k => k != cid) }
  else room1

/-- A disconnected player with a pending grace timer, for the concrete
reconnect scenario. -/
def c8Player : Player :=
  { id := "c", name := "N", score := 7, connected := false,
    socketId := some "old" }

/-- A lobby room holding `c8Player` (timer pending) and a host. -/
def c8Room : Room :=
  { id := "R", hostId := "h", players := [("h", dlHost), ("c", c8Player)],
    disconnectTimers := ["c"], state := RoomState.lobby, board := [],
    level := 1 }

/-- The server state of the concrete reconnect scenario. -/
def c8State : ServerState :=
  { rooms := [("R", c8Room)], clientToRoom := [("c", "R")] }

/-- A two-player room whose host `h` has disconnected, for the concrete
grace-timer scenario. -/
def c9Room : Room :=
  { id := "R", hostId := "h",
    players := [("h", { dlHost with connected := false }), ("c", c8Player)],
    disconnectTimers := ["h", "c"], state := RoomState.lobby, board := [],
    level := 1 }

/-- The server state of the concrete grace-timer scenario. -/
def c9State : ServerState :=
  { rooms := [("R", c9Room)], clientToRoom := [("h", "R"), ("c", "R")] }

end Pikachu

/-! # Theorems -/

namespace Pikachu

/-! ## Pointwise board lemmas -/

theorem mem_intRange {lo : Int} {n : Nat} {x : Int} :
    x ∈ intRange lo n ↔ lo ≤ x ∧ x < lo + n := by
  simp only [intRange, List.mem_map, List.mem_range]
  constructor
  · rintro ⟨i, hi, rfl⟩
    omega
  · rintro ⟨h1, h2⟩
    refine ⟨(x - lo).toNat, ?_, ?_⟩ <;> omega

theorem cell_neg {b : Board} {r c : Int} (h : ¬ (0 ≤ r ∧ 0 ≤ c)) :
    cell b r c = none := by
  unfold cell; rw [if_neg h]

/-- Writing one cell leaves every other cell unchanged. -/
theorem cell_setCell_ne {b : Board} {r c r' c' : Int} {v : Option Nat}
    (h : r' ≠ r ∨ c' ≠ c) :
    cell (setCell b r c v) r' c' = cell b r' c' := by
  by_cases hrc : 0 ≤ r ∧ 0 ≤ c
  case neg => rw [setCell, if_neg hrc]
  case pos =>
    rw [setCell, if_pos hrc]
    cases hb : b.get? r.toNat with
    | none => rfl
    | some row =>
      by_cases hrc' : 0 ≤ r' ∧ 0 ≤ c'
      case neg => rw [cell_neg hrc', cell_neg hrc']
      case pos =>
        rw [cell, cell, if_pos hrc', if_pos hrc']
        by_cases hrr : r'.toNat = r.toNat
        · have hr : r' = r := by omega
          have hcc : c.toNat ≠ c'.toNat := by
            rcases h with h | h
            · exact absurd hr h
            · omega
          have hlt : r.toNat < b.length := by
            rcases List.get?_eq_some.1 hb with ⟨hl, _⟩
            exact hl
          rw [hr, List.get?_set_eq_of_lt _ hlt, hb]
          show ((row.set c.toNat v).get? c'.toNat).join = (row.get? c'.toNat).join
          rw [List.get?_set_ne _ _ hcc]
        · rw [List.get?_set_ne _ _ (Ne.symm hrr)]

/-! ## Frame lemmas for the collapse walks

Each walk writes only cells of a single column (respectively row), in a
band of indices bounded by its loop guard. -/

theorem level2Go_frame (b : Board) (c r r' c' : Int)
    (h : c' ≠ c ∨ r' < r ∨ 10 ≤ r') :
    cell (level2Go b c r) r' c' = cell b r' c' := by
  induction b, c, r using level2Go.induct with
  | case1 b c r hlt hcond ih =>
    have hr10 : r < 10 := by have := hlt; simp only [ROWS] at this; omega
    rw [level2Go, dif_pos hlt, if_pos hcond,
      ih (by rcases h with h | h | h
             exacts [Or.inl h, Or.inr (Or.inl (by omega)), Or.inr (Or.inr h)]),
      cell_setCell_ne (by rcases h with h | h | h
                          exacts [Or.inr h, Or.inl (by omega), Or.inl (by omega)])]
  | case2 b c r hlt hcond =>
    have hr10 : r < 10 := by have := hlt; simp only [ROWS] at this; omega
    rw [level2Go, dif_pos hlt, if_neg hcond,
      cell_setCell_ne (by rcases h with h | h | h
                          exacts [Or.inr h, Or.inl (by omega), Or.inl (by omega)])]
  | case3 b c r hlt => rw [level2Go, dif_neg hlt]

theorem level3Go_frame (b : Board) (c r r' c' : Int)
    (h : c' ≠ c ∨ r < r' ∨ r' ≤ 0) :
    cell (level3Go b c r) r' c' = cell b r' c' := by
  induction b, c, r using level3Go.induct with
  | case1 b c r hlt hcond ih =>
    rw [level3Go, dif_pos hlt, if_pos hcond,
      ih (by rcases h with h | h | h
             exacts [Or.inl h, Or.inr (Or.inl (by omega)), Or.inr (Or.inr h)]),
      cell_setCell_ne (by rcases h with h | h | h
                          exacts [Or.inr h, Or.inl (by omega), Or.inl (by omega)])]
  | case2 b c r hlt hcond =>
    rw [level3Go, dif_pos hlt, if_neg hcond,
      cell_setCell_ne (by rcases h with h | h | h
                          exacts [Or.inr h, Or.inl (by omega), Or.inl (by omega)])]
  | case3 b c r hlt => rw [level3Go, dif_neg hlt]

theorem level4Go_frame (b : Board) (r c r' c' : Int)
    (h : r' ≠ r ∨ c < c' ∨ c' ≤ 0) :
    cell (level4Go b r c) r' c' = cell b r' c' := by
  induction b, r, c using level4Go.induct with
  | case1 b r c hlt hcond ih =>
    rw [level4Go, dif_pos hlt, if_pos hcond,
      ih (by rcases h with h | h | h
             exacts [Or.inl h, Or.inr (Or.inl (by omega)), Or.inr (Or.inr h)]),
      cell_setCell_ne (by rcases h with h | h | h
                          exacts [Or.inl h, Or.inr (by omega), Or.inr (by omega)])]
  | case2 b r c hlt hcond =>
    rw [level4Go, dif_pos hlt, if_neg hcond,
      cell_setCell_ne (by rcases h with h | h | h
                          exacts [Or.inl h, Or.inr (by omega), Or.inr (by omega)])]
  | case3 b r c hlt => rw [level4Go, dif_neg hlt]

theorem level5Go_frame (b : Board) (r c r' c' : Int)
    (h : r' ≠ r ∨ c' < c ∨ 17 ≤ c') :
    cell (level5Go b r c) r' c' = cell b r' c' := by
  induction b, r, c using level5Go.induct with
  | case1 b r c hlt hcond ih =>
    have hc17 : c < 17 := by have := hlt; simp only [COLS] at this; omega
    rw [level5Go, dif_pos hlt, if_pos hcond,
      ih (by rcases h with h | h | h
             exacts [Or.inl h, Or.inr (Or.inl (by omega)), Or.inr (Or.inr h)]),
      cell_setCell_ne (by rcases h with h | h | h
                          exacts [Or.inl h, Or.inr (by omega), Or.inr (by omega)])]
  | case2 b r c hlt hcond =>
    have hc17 : c < 17 := by have := hlt; simp only [COLS] at this; omega
    rw [level5Go, dif_pos hlt, if_neg hcond,
      cell_setCell_ne (by rcases h with h | h | h
                          exacts [Or.inl h, Or.inr (by omega), Or.inr (by omega)])]
  | case3 b r c hlt => rw [level5Go, dif_neg hlt]

theorem level6UpGo_frame (b : Board) (c r r' c' : Int)
    (h : c' ≠ c ∨ r' < r ∨ 5 < r') :
    cell (level6UpGo b c r) r' c' = cell b r' c' := by
  induction b, c, r using level6UpGo.induct with
  | case1 b c r hlt hcond ih =>
    rw [level6UpGo, dif_pos hlt, if_pos hcond,
      ih (by rcases h with h | h | h
             exacts [Or.inl h, Or.inr (Or.inl (by omega)), Or.inr (Or.inr h)]),
      cell_setCell_ne (by rcases h with h | h | h
                          exacts [Or.inr h, Or.inl (by omega), Or.inl (by omega)])]
  | case2 b c r hlt hcond =>
    rw [level6UpGo, dif_pos hlt, if_neg hcond,
      cell_setCell_ne (by rcases h with h | h | h
                          exacts [Or.inr h, Or.inl (by omega), Or.inl (by omega)])]
  | case3 b c r hlt => rw [level6UpGo, dif_neg hlt]

theorem level6DownGo_frame (b : Board) (c r r' c' : Int)
    (h : c' ≠ c ∨ r < r' ∨ r' < 5) :
    cell (level6DownGo b c r) r' c' = cell b r' c' := by
  induction b, c, r using level6DownGo.induct with
  | case1 b c r hlt hcond ih =>
    rw [level6DownGo, dif_pos hlt, if_pos hcond,
      ih (by rcases h with h | h | h
             exacts [Or.inl h, Or.inr (Or.inl (by omega)), Or.inr (Or.inr h)]),
      cell_setCell_ne (by rcases h with h | h | h
                          exacts [Or.inr h, Or.inl (by omega), Or.inl (by omega)])]
  | case2 b c r hlt hcond =>
    rw [level6DownGo, dif_pos hlt, if_neg hcond,
      cell_setCell_ne (by rcases h with h | h | h
                          exacts [Or.inr h, Or.inl (by omega), Or.inl (by omega)])]
  | case3 b c r hlt => rw [level6DownGo, dif_neg hlt]

theorem level7LeftGo_frame (b : Board) (r c r' c' : Int)
    (h : r' ≠ r ∨ c' < c ∨ 8 < c') :
    cell (level7LeftGo b r c) r' c' = cell b r' c' := by
  induction b, r, c using level7LeftGo.induct with
  | case1 b r c hlt hcond ih =>
    rw [level7LeftGo, dif_pos hlt, if_pos hcond,
      ih (by rcases h with h | h | h
             exacts [Or.inl h, Or.inr (Or.inl (by omega)), Or.inr (Or.inr h)]),
      cell_setCell_ne (by rcases h with h | h | h
                          exacts [Or.inl h, Or.inr (by omega), Or.inr (by omega)])]
  | case2 b r c hlt hcond =>
    rw [level7LeftGo, dif_pos hlt, if_neg hcond,
      cell_setCell_ne (by rcases h with h | h | h
                          exacts [Or.inl h, Or.inr (by omega), Or.inr (by omega)])]
  | case3 b r c hlt => rw [level7LeftGo, dif_neg hlt]

theorem level7RightGo_frame (b : Board) (r c r' c' : Int)
    (h : r' ≠ r ∨ c < c' ∨ c' ≤ 8) :
    cell (level7RightGo b r c) r' c' = cell b r' c' := by
  induction b, r, c using level7RightGo.induct with
  | case1 b r c hlt hcond ih =>
    rw [level7RightGo, dif_pos hlt, if_pos hcond,
      ih (by rcases h with h | h | h
             exacts [Or.inl h, Or.inr (Or.inl (by omega)), Or.inr (Or.inr h)]),
      cell_setCell_ne (by rcases h with h | h | h
                          exacts [Or.inl h, Or.inr (by omega), Or.inr (by omega)])]
  | case2 b r c hlt hcond =>
    rw [level7RightGo, dif_pos hlt, if_neg hcond,
      cell_setCell_ne (by rcases h with h | h | h
                          exacts [Or.inl h, Or.inr (by omega), Or.inr (by omega)])]
  | case3 b r c hlt => rw [level7RightGo, dif_neg hlt]

theorem inBounds_iff {r c : Int} :
    inBounds r c = true ↔ 0 ≤ r ∧ r < 11 ∧ 0 ≤ c ∧ c < 18 := by
  simp [inBounds, ROWS, COLS, and_assoc]

/-! ## Column / row confinement of each collapse function -/

theorem level2_frame_col {b : Board} {p : Pos} {r c : Int} (h : c ≠ p.c) :
    cell (level2 b p) r c = cell b r c :=
  level2Go_frame _ _ _ _ _ (Or.inl h)

theorem level3_frame_col {b : Board} {p : Pos} {r c : Int} (h : c ≠ p.c) :
    cell (level3 b p) r c = cell b r c :=
  level3Go_frame _ _ _ _ _ (Or.inl h)

theorem level6_frame_col {b : Board} {p : Pos} {r c : Int} (h : c ≠ p.c) :
    cell (level6 b p) r c = cell b r c := by
  unfold level6
  split_ifs
  · exact level6UpGo_frame _ _ _ _ _ (Or.inl h)
  · exact level6DownGo_frame _ _ _ _ _ (Or.inl h)
  · exact cell_setCell_ne (Or.inr h)

theorem level4_frame_row {b : Board} {p : Pos} {r c : Int} (h : r ≠ p.r) :
    cell (level4 b p) r c = cell b r c :=
  level4Go_frame _ _ _ _ _ (Or.inl h)

theorem level5_frame_row {b : Board} {p : Pos} {r c : Int} (h : r ≠ p.r) :
    cell (level5 b p) r c = cell b r c :=
  level5Go_frame _ _ _ _ _ (Or.inl h)

theorem level7_frame_row {b : Board} {p : Pos} {r c : Int} (h : r ≠ p.r) :
    cell (level7 b p) r c = cell b r c := by
  unfold level7
  split_ifs
  · exact level7LeftGo_frame _ _ _ _ _ (Or.inl h)
  · exact level7RightGo_frame _ _ _ _ _ (Or.inl h)

theorem level1_frame {b : Board} {p : Pos} {r c : Int}
    (h : ¬(r = p.r ∧ c = p.c)) :
    cell (level1 b p) r c = cell b r c := by
  apply cell_setCell_ne
  by_cases hr : r = p.r
  · exact Or.inr (fun hc => h ⟨hr, hc⟩)
  · exact Or.inl hr

/-- C10: each collapse policy modifies at most the two removal columns
(levels 2, 3, 6), the two removal rows (levels 4, 5, 7), or the two
removed cells themselves (level 1); every other cell is unchanged. -/
theorem applyLevel_frame (b : Board) (a p : Pos) (r c : Int) :
    (∀ level, (level = 2 ∨ level = 3 ∨ level = 6) → c ≠ a.c → c ≠ p.c →
      cell (applyLevel b level a p) r c = cell b r c) ∧
    (∀ level, (level = 4 ∨ level = 5 ∨ level = 7) → r ≠ a.r → r ≠ p.r →
      cell (applyLevel b level a p) r c = cell b r c) ∧
    (¬(r = a.r ∧ c = a.c) → ¬(r = p.r ∧ c = p.c) →
      cell (applyLevel b 1 a p) r c = cell b r c) := by
  refine ⟨?_, ?_, ?_⟩
  · rintro level (rfl | rfl | rfl) ha hp
    · show cell (if a.r < p.r then level2 (level2 b p) a
        else level2 (level2 b a) p) r c = cell b r c
      split_ifs
      · rw [level2_frame_col ha, level2_frame_col hp]
      · rw [level2_frame_col hp, level2_frame_col ha]
    · show cell (if a.r < p.r then level3 (level3 b a) p
        else level3 (level3 b p) a) r c = cell b r c
      split_ifs
      · rw [level3_frame_col hp, level3_frame_col ha]
      · rw [level3_frame_col ha, level3_frame_col hp]
    · show cell (if 5 < a.r ∧ 5 < p.r then
          if a.r < p.r then level6 (level6 b a) p else level6 (level6 b p) a
        else
          if a.r < p.r then level6 (level6 b p) a else level6 (level6 b a) p)
        r c = cell b r c
      split_ifs <;>
        simp only [level6_frame_col ha, level6_frame_col hp]
  · rintro level (rfl | rfl | rfl) ha hp
    · show cell (if a.c < p.c then level4 (level4 b a) p
        else level4 (level4 b p) a) r c = cell b r c
      split_ifs
      · rw [level4_frame_row hp, level4_frame_row ha]
      · rw [level4_frame_row ha, level4_frame_row hp]
    · show cell (if a.c < p.c then level5 (level5 b p) a
        else level5 (level5 b a) p) r c = cell b r c
      split_ifs
      · rw [level5_frame_row ha, level5_frame_row hp]
      · rw [level5_frame_row hp, level5_frame_row ha]
    · show cell (if 8 < a.c ∧ 8 < p.c then
          if a.c < p.c then level7 (level7 b a) p else level7 (level7 b p) a
        else
          if a.c < p.c then level7 (level7 b p) a else level7 (level7 b a) p)
        r c = cell b r c
      split_ifs <;>
        simp only [level7_frame_row ha, level7_frame_row hp]
  · intro ha hp
    show cell (level1 (level1 b a) p) r c = cell b r c
    rw [level1_frame hp, level1_frame ha]

/-- Closed instance of `applyLevel_frame`: a level-2 collapse at
columns 2 and 3 leaves a cell of column 5 unchanged. -/
theorem applyLevel_frame_witness :
    ((2 : Nat) = 2 ∨ (2 : Nat) = 3 ∨ (2 : Nat) = 6) ∧
      (5 : Int) ≠ (⟨4, 2⟩ : Pos).c ∧ (5 : Int) ≠ (⟨6, 3⟩ : Pos).c ∧
      cell (applyLevel [[some 0, some 1]] 2 ⟨4, 2⟩ ⟨6, 3⟩) 0 5 =
        cell [[some 0, some 1]] 0 5 :=
  ⟨Or.inl rfl, by decide, by decide,
    (applyLevel_frame [[some 0, some 1]] ⟨4, 2⟩ ⟨6, 3⟩ 0 5).1 2
      (Or.inl rfl) (by decide) (by decide)⟩

/-- C3: for every level `1..7`, `applyLevel` performs the two
single-position collapses in exactly the order described by the spec's
ordering rule (`collapseFirstSecond`): larger coordinate first for the
downward (2) / rightward (5) policies, the tile farther from the
destination of the displaced tiles first for the upward (3) / leftward
(4) policies, and for the center-biased policies (6, 7) the same
farther-first rule after branching on which side of row 5 / column 8
the two positions lie. -/
theorem applyLevel_order (b : Board) (level : Nat) (a p : Pos)
    (h1 : 1 ≤ level) (h7 : level ≤ 7) :
    applyLevel b level a p =
      levelFun level (levelFun level b (collapseFirstSecond level a p).1)
        (collapseFirstSecond level a p).2 := by
  interval_cases level <;>
    simp only [applyLevel, collapseFirstSecond, levelFun] <;>
    split_ifs <;> rfl

/-- Closed instance of `applyLevel_order` at level 2 with distinct rows. -/
theorem applyLevel_order_witness :
    (1 : Nat) ≤ 2 ∧ (2 : Nat) ≤ 7 ∧
      applyLevel [[some 0]] 2 ⟨2, 3⟩ ⟨5, 3⟩ =
        levelFun 2 (levelFun 2 [[some 0]] (collapseFirstSecond 2 ⟨2, 3⟩ ⟨5, 3⟩).1)
          (collapseFirstSecond 2 ⟨2, 3⟩ ⟨5, 3⟩).2 :=
  ⟨by decide, by decide,
    applyLevel_order [[some 0]] 2 ⟨2, 3⟩ ⟨5, 3⟩ (by decide) (by decide)⟩

/-! ## Border preservation (C6) -/

theorem level2_border {b : Board} {p : Pos} (hp : interiorPos p) {r c : Int}
    (h : isBorder r c) : cell (level2 b p) r c = cell b r c := by
  obtain ⟨h1, h2, h3, h4⟩ := hp
  obtain ⟨_, hb⟩ := h
  apply level2Go_frame
  rcases hb with h | h | h | h
  · right; left; omega
  · right; right; omega
  · left; omega
  · left; omega

theorem level3_border {b : Board} {p : Pos} (hp : interiorPos p) {r c : Int}
    (h : isBorder r c) : cell (level3 b p) r c = cell b r c := by
  obtain ⟨h1, h2, h3, h4⟩ := hp
  obtain ⟨_, hb⟩ := h
  apply level3Go_frame
  rcases hb with h | h | h | h
  · right; right; omega
  · right; left; omega
  · left; omega
  · left; omega

theorem level4_border {b : Board} {p : Pos} (hp : interiorPos p) {r c : Int}
    (h : isBorder r c) : cell (level4 b p) r c = cell b r c := by
  obtain ⟨h1, h2, h3, h4⟩ := hp
  obtain ⟨_, hb⟩ := h
  apply level4Go_frame
  rcases hb with h | h | h | h
  · left; omega
  · left; omega
  · right; right; omega
  · right; left; omega

theorem level5_border {b : Board} {p : Pos} (hp : interiorPos p) {r c : Int}
    (h : isBorder r c) : cell (level5 b p) r c = cell b r c := by
  obtain ⟨h1, h2, h3, h4⟩ := hp
  obtain ⟨_, hb⟩ := h
  apply level5Go_frame
  rcases hb with h | h | h | h
  · left; omega
  · left; omega
  · right; left; omega
  · right; right; omega

theorem level6_border {b : Board} {p : Pos} (hp : interiorPos p) {r c : Int}
    (h : isBorder r c) : cell (level6 b p) r c = cell b r c := by
  obtain ⟨h1, h2, h3, h4⟩ := hp
  obtain ⟨_, hb⟩ := h
  unfold level6
  split_ifs with hu hd
  · apply level6UpGo_frame
    rcases hb with h | h | h | h
    · right; left; omega
    · right; right; omega
    · left; omega
    · left; omega
  · apply level6DownGo_frame
    rcases hb with h | h | h | h
    · right; right; omega
    · right; left; omega
    · left; omega
    · left; omega
  · apply cell_setCell_ne
    rcases hb with h | h | h | h
    · left; omega
    · left; omega
    · right; omega
    · right; omega

theorem level7_border {b : Board} {p : Pos} (hp : interiorPos p) {r c : Int}
    (h : isBorder r c) : cell (level7 b p) r c = cell b r c := by
  obtain ⟨h1, h2, h3, h4⟩ := hp
  obtain ⟨_, hb⟩ := h
  unfold level7
  split_ifs with hl
  · apply level7LeftGo_frame
    rcases hb with h | h | h | h
    · left; omega
    · left; omega
    · right; left; omega
    · right; right; omega
  · apply level7RightGo_frame
    rcases hb with h | h | h | h
    · left; omega
    · left; omega
    · right; right; omega
    · right; left; omega

theorem level1_border {b : Board} {p : Pos} (hp : interiorPos p) {r c : Int}
    (h : isBorder r c) : cell (level1 b p) r c = cell b r c := by
  obtain ⟨h1, h2, h3, h4⟩ := hp
  obtain ⟨_, hb⟩ := h
  apply cell_setCell_ne
  rcases hb with h | h | h | h
  · left; omega
  · left; omega
  · right; omega
  · right; omega

theorem cell_makeInitialBoard_border (js : Nat → Nat) (r c : Int)
    (h : isBorder r c) : cell (makeInitialBoard js) r c = none := by
  obtain ⟨hin, hb⟩ := h
  rw [inBounds_iff] at hin
  obtain ⟨hr0, hr1, hc0, hc1⟩ := hin
  unfold makeInitialBoard cell
  rw [if_pos ⟨hr0, hc0⟩]
  have hr11 : r.toNat < 11 := by omega
  have hc18 : c.toNat < 18 := by omega
  rw [List.get?_map, List.get?_range hr11]
  show ((((List.range 18).map _).get? c.toNat).join : Option Nat) = none
  rw [List.get?_map, List.get?_range hc18]
  show (if 1 ≤ r.toNat ∧ r.toNat ≤ 9 ∧ 1 ≤ c.toNat ∧ c.toNat ≤ 16 then
    (fisherYates js initialBag).get? ((r.toNat - 1) * 16 + (c.toNat - 1))
    else none) = none
  rw [if_neg (by omega)]

/-- C6: border cells are `null` in every generated board, and for every
level `1..7` and interior removal pair, `applyLevel` keeps every border
cell `null`. -/
theorem border_always_null :
    (∀ (js : Nat → Nat) (r c : Int), isBorder r c →
      cell (makeInitialBoard js) r c = none) ∧
    (∀ (b : Board) (level : Nat) (a p : Pos), 1 ≤ level → level ≤ 7 →
      interiorPos a → interiorPos p →
      (∀ r c, isBorder r c → cell b r c = none) →
      ∀ r c, isBorder r c → cell (applyLevel b level a p) r c = none) := by
  constructor
  · exact cell_makeInitialBoard_border
  · intro b level a p h1 h7 ha hp hnull r c hb
    interval_cases level
    · show cell (level1 (level1 b a) p) r c = none
      rw [level1_border hp hb, level1_border ha hb]
      exact hnull r c hb
    · show cell (if a.r < p.r then level2 (level2 b p) a
        else level2 (level2 b a) p) r c = none
      split_ifs
      · rw [level2_border ha hb, level2_border hp hb]; exact hnull r c hb
      · rw [level2_border hp hb, level2_border ha hb]; exact hnull r c hb
    · show cell (if a.r < p.r then level3 (level3 b a) p
        else level3 (level3 b p) a) r c = none
      split_ifs
      · rw [level3_border hp hb, level3_border ha hb]; exact hnull r c hb
      · rw [level3_border ha hb, level3_border hp hb]; exact hnull r c hb
    · show cell (if a.c < p.c then level4 (level4 b a) p
        else level4 (level4 b p) a) r c = none
      split_ifs
      · rw [level4_border hp hb, level4_border ha hb]; exact hnull r c hb
      · rw [level4_border ha hb, level4_border hp hb]; exact hnull r c hb
    · show cell (if a.c < p.c then level5 (level5 b p) a
        else level5 (level5 b a) p) r c = none
      split_ifs
      · rw [level5_border ha hb, level5_border hp hb]; exact hnull r c hb
      · rw [level5_border hp hb, level5_border ha hb]; exact hnull r c hb
    · show cell (if 5 < a.r ∧ 5 < p.r then
          if a.r < p.r then level6 (level6 b a) p else level6 (level6 b p) a
        else
          if a.r < p.r then level6 (level6 b p) a else level6 (level6 b a) p)
        r c = none
      split_ifs <;>
        simp only [level6_border ha hb, level6_border hp hb] <;>
        exact hnull r c hb
    · show cell (if 8 < a.c ∧ 8 < p.c then
          if a.c < p.c then level7 (level7 b a) p else level7 (level7 b p) a
        else
          if a.c < p.c then level7 (level7 b p) a else level7 (level7 b a) p)
        r c = none
      split_ifs <;>
        simp only [level7_border ha hb, level7_border hp hb] <;>
        exact hnull r c hb

/-- Closed instance of `border_always_null`: the generated board under
one index stream has a null corner cell, and a level-1 removal of an
interior pair on a small bordered board keeps cell (0,0) null. -/
theorem border_always_null_witness :
    isBorder 0 0 ∧
      cell (makeInitialBoard (fun _ => 0)) 0 0 = none ∧
      cell (applyLevel [] 1 ⟨1, 1⟩ ⟨1, 1⟩) 0 0 = none :=
  ⟨by decide,
    border_always_null.1 (fun _ => 0) 0 0 (by decide),
    border_always_null.2 [] 1 ⟨1, 1⟩ ⟨1, 1⟩
      (by decide) (by decide) (by decide) (by decide)
      (fun r c _ => by rw [cell]; split
                       · rfl
                       · rfl)
      0 0 (by decide)⟩

/-! ## `rerandomRemaining` preserves the value multiset and the
occupied-cell set (C7) -/

theorem count_set {α} [DecidableEq α] (l : List α) (n : Nat) (v w a : α)
    (h : l.get? n = some w) :
    ((l.set n v).count a) + (if w = a then 1 else 0) =
      l.count a + (if v = a then 1 else 0) := by
  induction l generalizing n with
  | nil => simp at h
  | cons x rest ih =>
    cases n with
    | zero =>
      simp only [List.get?] at h
      obtain rfl : x = w := by injection h
      simp only [List.set, List.count_cons, beq_iff_eq]
      split_ifs <;> omega
    | succ m =>
      simp only [List.get?] at h
      simp only [List.set, List.count_cons, beq_iff_eq]
      have := ih m h
      split_ifs at * <;> omega

theorem listSwap_perm (l : List Nat) (i j : Nat) : (listSwap l i j).Perm l := by
  unfold listSwap
  cases hi : l.get? i with
  | none => exact List.Perm.refl l
  | some x =>
    cases hj : l.get? j with
    | none => exact List.Perm.refl l
    | some y =>
      by_cases hij : i = j
      · subst hij
        have hxy : x = y := by rw [hi] at hj; injection hj
        subst hxy
        have hset : l.set i x = l := by
          apply List.ext_get?
          intro n
          by_cases hn : n = i
          · subst hn
            have hlt : n < l.length := by
              rcases List.get?_eq_some.1 hi with ⟨h', _⟩
              exact h'
            rw [List.get?_set_eq_of_lt _ hlt, hi]
          · rw [List.get?_set_ne _ _ (fun e => hn e.symm)]
        show ((l.set i x).set i x).Perm l
        rw [hset, hset]
      · show ((l.set i y).set j x).Perm l
        rw [List.perm_iff_count]
        intro a
        have hj' : (l.set i y).get? j = some y := by
          rw [List.get?_set_ne _ _ hij, hj]
        have h1 := count_set (l.set i y) j x y a hj'
        have h2 := count_set l i y x a hi
        split_ifs at h1 h2 <;> omega

theorem fyGo_perm (js : Nat → Nat) : ∀ (i : Nat) (l : List Nat),
    (fyGo js i l).Perm l
  | 0, l => List.Perm.refl l
  | i + 1, l =>
    (fyGo_perm js i (listSwap l (i + 1) (js (i + 1)))).trans
      (listSwap_perm l (i + 1) (js (i + 1)))

theorem fisherYates_perm (js : Nat → Nat) (l : List Nat) :
    (fisherYates js l).Perm l :=
  fyGo_perm js (l.length - 1) l

/-! Generic list lemmas used for the reshuffle proof. -/

theorem filterMap_if_eq_filter_map {α β} (l : List α) (f : α → β)
    (P : β → Prop) [DecidablePred P] :
    l.filterMap (fun a => if P (f a) then some (f a) else none) =
      (l.map f).filter (fun x => decide (P x)) := by
  induction l with
  | nil => rfl
  | cons x rest ih =>
    simp only [List.filterMap_cons, List.map_cons, List.filter_cons]
    by_cases h : P (f x) <;> simp [h, ih]

theorem filterMap_eq_filter_isSome_filterMap {α β} (l : List α)
    (g : α → Option β) :
    l.filterMap g = (l.filter (fun a => (g a).isSome)).filterMap g := by
  induction l with
  | nil => rfl
  | cons x rest ih =>
    simp only [List.filterMap_cons, List.filter_cons]
    cases h : g x <;> simp [h, ih, List.filterMap_cons]

theorem length_filterMap_of_isSome {α β} (l : List α) (g : α → Option β)
    (h : ∀ a ∈ l, (g a).isSome) :
    (l.filterMap g).length = l.length := by
  induction l with
  | nil => rfl
  | cons x rest ih =>
    have hx := h x (List.mem_cons_self _ _)
    cases hg : g x with
    | none => rw [hg] at hx; simp at hx
    | some y =>
      simp only [List.filterMap_cons, hg, List.length_cons]
      rw [ih (fun a ha => h a (List.mem_cons_of_mem _ ha))]

theorem filter_flatMap {α β} (l : List α) (g : α → List β) (P : β → Bool) :
    (l.flatMap g).filter P = l.flatMap (fun a => (g a).filter P) := by
  induction l with
  | nil => rfl
  | cons x rest ih => simp [List.flatMap_cons, List.filter_append, ih]

theorem filterMap_flatMap {α β γ} (l : List α) (g : α → List β)
    (f : β → Option γ) :
    (l.flatMap g).filterMap f = l.flatMap (fun a => (g a).filterMap f) := by
  induction l with
  | nil => rfl
  | cons x rest ih => simp [List.flatMap_cons, List.filterMap_append, ih]

theorem count_flatMap_replicate (L : List Nat) (cnt : Nat → Nat) (t : Nat)
    (hL : L.Nodup) :
    (L.flatMap (fun s => List.replicate (cnt s) s)).count t =
      if t ∈ L then cnt t else 0 := by
  induction L with
  | nil => simp
  | cons s rest ih =>
    obtain ⟨hs, hrest⟩ := List.nodup_cons.1 hL
    simp only [List.flatMap_cons, List.count_append, List.count_replicate,
      ih hrest, List.mem_cons]
    by_cases hts : t = s
    · subst hts
      simp [hs]
    · have hst : ¬(s = t) := fun e => hts e.symm
      simp [beq_iff_eq, hst, hts]

theorem occupiedPositions_eq (b : Board) :
    occupiedPositions b =
      interiorCells.filter (fun p => decide (cell b p.r p.c ≠ none)) := by
  unfold occupiedPositions interiorCells
  rw [filter_flatMap]
  congr 1
  funext r
  exact filterMap_if_eq_filter_map (intRange 1 16)
    (fun c => (⟨r, c⟩ : Pos)) (fun p => cell b p.r p.c ≠ none)

theorem interiorValues_eq (b : Board) :
    interiorValues b = interiorCells.filterMap (fun p => cell b p.r p.c) := by
  unfold interiorValues interiorCells
  rw [filterMap_flatMap]
  congr 1

set_option maxRecDepth 20000 in
theorem interiorCells_nodup : interiorCells.Nodup := by decide

theorem occupiedPositions_nodup (b : Board) : (occupiedPositions b).Nodup := by
  rw [occupiedPositions_eq]
  exact interiorCells_nodup.filter _

theorem mem_occupiedPositions {b : Board} {q : Pos} :
    q ∈ occupiedPositions b ↔ q ∈ interiorCells ∧ cell b q.r q.c ≠ none := by
  rw [occupiedPositions_eq, List.mem_filter]
  simp

theorem remainingBag_perm (b : Board)
    (h33 : ∀ v ∈ interiorValues b, v < TYPE_COUNT) :
    (remainingBag b).Perm (interiorValues b) := by
  rw [List.perm_iff_count]
  intro t
  unfold remainingBag
  rw [count_flatMap_replicate _ _ _ (List.nodup_range _)]
  by_cases ht : t ∈ List.range TYPE_COUNT
  · rw [if_pos ht]
  · rw [if_neg ht]
    symm
    rw [List.count_eq_zero]
    intro hmem
    exact ht (List.mem_range.2 (h33 t hmem))

theorem length_occupiedPositions (b : Board) :
    (occupiedPositions b).length = (interiorValues b).length := by
  rw [occupiedPositions_eq, interiorValues_eq b,
    filterMap_eq_filter_isSome_filterMap interiorCells (fun p => cell b p.r p.c),
    length_filterMap_of_isSome _ _
      (fun a ha => (List.mem_filter.1 ha).2)]
  congr 1
  apply List.filter_congr
  intro p _
  cases cell b p.r p.c <;> simp

theorem cell_some_structure {b : Board} {r c : Int} (h : cell b r c ≠ none) :
    (0 ≤ r ∧ 0 ≤ c) ∧ ∃ row, b.get? r.toNat = some row ∧ c.toNat < row.length := by
  unfold cell at h
  by_cases h0 : 0 ≤ r ∧ 0 ≤ c
  · rw [if_pos h0] at h
    cases hb : b.get? r.toNat with
    | none => rw [hb] at h; exact absurd rfl h
    | some row =>
      rw [hb] at h
      replace h : (row.get? c.toNat).join ≠ none := h
      refine ⟨h0, row, rfl, ?_⟩
      cases hrow : row.get? c.toNat with
      | none => rw [hrow] at h; exact absurd rfl h
      | some v =>
        rcases List.get?_eq_some.1 hrow with ⟨hlt, _⟩
        exact hlt
  · rw [if_neg h0] at h
    exact absurd rfl h

theorem cell_setCell_self {b : Board} {r c : Int} {v : Option Nat}
    (h0 : 0 ≤ r ∧ 0 ≤ c) (row : List (Option Nat))
    (hrow : b.get? r.toNat = some row) (hc : c.toNat < row.length) :
    cell (setCell b r c v) r c = v := by
  rw [setCell, if_pos h0, hrow]
  show cell (b.set r.toNat (row.set c.toNat v)) r c = v
  have hbl : r.toNat < b.length := by
    rcases List.get?_eq_some.1 hrow with ⟨hl, _⟩
    exact hl
  rw [cell, if_pos h0, List.get?_set_eq_of_lt _ hbl]
  show ((row.set c.toNat v).get? c.toNat).join = v
  rw [List.get?_set_eq_of_lt _ hc]
  rfl

theorem setCell_rowlen (b : Board) (r' c' : Int) (v : Option Nat) (n : Nat) :
    ((setCell b r' c' v).get? n).map List.length = (b.get? n).map List.length := by
  unfold setCell
  split
  case isFalse => rfl
  case isTrue h0 =>
    cases hb : b.get? r'.toNat with
    | none => rfl
    | some row =>
      show ((b.set r'.toNat (row.set c'.toNat v)).get? n).map List.length
        = (b.get? n).map List.length
      by_cases hn : n = r'.toNat
      · subst hn
        have hbl : r'.toNat < b.length := by
          rcases List.get?_eq_some.1 hb with ⟨hl, _⟩
          exact hl
        rw [List.get?_set_eq_of_lt _ hbl, hb]
        simp [List.length_set]
      · rw [List.get?_set_ne _ _ (fun e => hn e.symm)]

theorem validCell_setCell {b : Board} {p : Pos} (r' c' : Int) (v : Option Nat)
    (h : validCell b p) : validCell (setCell b r' c' v) p := by
  obtain ⟨h0, row, hrow, hc⟩ := h
  refine ⟨h0, ?_⟩
  have hl := setCell_rowlen b r' c' v p.r.toNat
  rw [hrow] at hl
  cases hx : (setCell b r' c' v).get? p.r.toNat with
  | none => rw [hx] at hl; simp at hl
  | some row' =>
    rw [hx] at hl
    simp only [Option.map_some'] at hl
    have : row'.length = row.length := by injection hl
    exact ⟨row', rfl, by omega⟩

theorem validCell_foldl {α} (l : List α) (f : α → Pos) (g : α → Option Nat)
    (b : Board) (p : Pos) (h : validCell b p) :
    validCell (l.foldl (fun bb a => setCell bb (f a).r (f a).c (g a)) b) p := by
  induction l generalizing b with
  | nil => exact h
  | cons x rest ih => exact ih _ (validCell_setCell _ _ _ h)

theorem cell_foldl_ne {α} (l : List α) (f : α → Pos) (g : α → Option Nat)
    (b : Board) (r c : Int)
    (h : ∀ a ∈ l, ¬(r = (f a).r ∧ c = (f a).c)) :
    cell (l.foldl (fun bb a => setCell bb (f a).r (f a).c (g a)) b) r c
      = cell b r c := by
  induction l generalizing b with
  | nil => rfl
  | cons x rest ih =>
    rw [List.foldl_cons, ih _ (fun a ha => h a (List.mem_cons_of_mem _ ha))]
    apply cell_setCell_ne
    have hx := h x (List.mem_cons_self _ _)
    by_cases hr : r = (f x).r
    · exact Or.inr (fun hc => hx ⟨hr, hc⟩)
    · exact Or.inl hr

/-- Index computation for the write-back fold of `rerandomRemaining`:
after folding `setCell` over `positions.enumFrom k` with values
`bag.get? index`, the cell at the `i`-th position holds `bag.get? (k+i)`
(positions are pairwise distinct, so later writes never overwrite). -/
theorem pos_eq_of_coords {p q : Pos} (h1 : p.r = q.r) (h2 : p.c = q.c) :
    p = q := by
  cases p
  cases q
  simp_all

theorem cell_writeFold (bag : List Nat) :
    ∀ (ps : List Pos) (k : Nat) (b : Board), ps.Nodup →
      (∀ p ∈ ps, validCell b p) →
      ∀ (i : Nat) (p' : Pos), ps.get? i = some p' →
      cell ((ps.enumFrom k).foldl
          (fun bb ip => setCell bb ip.2.r ip.2.c (bag.get? ip.1)) b)
        p'.r p'.c = bag.get? (k + i) := by
  intro ps
  induction ps with
  | nil => intro k b _ _ i p' h; simp at h
  | cons p rest ih =>
    intro k b hnd hvalid i p' hget
    obtain ⟨hp, hrest⟩ := List.nodup_cons.1 hnd
    rw [List.enumFrom_cons, List.foldl_cons]
    cases i with
    | zero =>
      obtain rfl : p = p' := by injection hget
      rw [Nat.add_zero]
      have hne : ∀ ip ∈ rest.enumFrom (k + 1),
          ¬(p.r = ip.2.r ∧ p.c = ip.2.c) := by
        intro ip hip hco
        have h2 : ip.2 ∈ rest := by
          have := List.mem_map_of_mem Prod.snd hip
          rwa [List.enumFrom_map_snd] at this
        exact hp (pos_eq_of_coords hco.1 hco.2 ▸ h2)
      rw [cell_foldl_ne (rest.enumFrom (k + 1)) Prod.snd
        (fun ip => bag.get? ip.1) _ p.r p.c hne]
      obtain ⟨h0, row, hrow, hc⟩ := hvalid p (List.mem_cons_self _ _)
      exact cell_setCell_self h0 row hrow hc
    | succ m =>
      have hk : k + (m + 1) = (k + 1) + m := by omega
      rw [hk]
      exact ih (k + 1) _ hrest
        (fun q hq => validCell_setCell _ _ _
          (hvalid q (List.mem_cons_of_mem _ hq)))
        m p' hget

/-- A `filterMap` that reads `bag.get? (k + index)` at the `i`-th element
collects exactly `bag.drop k` when the lengths line up. -/
theorem filterMap_eq_drop (bag : List Nat) :
    ∀ (ps : List Pos) (k : Nat) (f : Pos → Option Nat),
      (∀ i p', ps.get? i = some p' → f p' = bag.get? (k + i)) →
      k + ps.length = bag.length →
      ps.filterMap f = bag.drop k := by
  intro ps
  induction ps with
  | nil =>
    intro k f _ hlen
    simp only [List.length_nil, Nat.add_zero] at hlen
    simp [hlen, List.drop_length]
  | cons p rest ih =>
    intro k f h hlen
    have hk : k < bag.length := by
      simp only [List.length_cons] at hlen
      omega
    have hp := h 0 p rfl
    rw [Nat.add_zero, List.get?_eq_get hk] at hp
    rw [List.filterMap_cons, hp, List.drop_eq_get_cons hk]
    show bag.get ⟨k, hk⟩ :: List.filterMap f rest
      = bag.get ⟨k, hk⟩ :: List.drop (k + 1) bag
    congr 1
    apply ih (k + 1) f
    · intro i p' hi
      have := h (i + 1) p' hi
      rw [this]
      congr 1
      omega
    · simp only [List.length_cons] at hlen
      omega

theorem cell_clearFold_ne (ps : List Pos) (b : Board) (r c : Int)
    (h : ∀ p ∈ ps, ¬(r = p.r ∧ c = p.c)) :
    cell (ps.foldl (fun bb p => setCell bb p.r p.c none) b) r c = cell b r c := by
  induction ps generalizing b with
  | nil => rfl
  | cons p rest ih =>
    rw [List.foldl_cons, ih _ (fun q hq => h q (List.mem_cons_of_mem _ hq))]
    apply cell_setCell_ne
    have hx := h p (List.mem_cons_self _ _)
    by_cases hr : r = p.r
    · exact Or.inr (fun hc => hx ⟨hr, hc⟩)
    · exact Or.inl hr

theorem cell_enumFold_ne (eps : List (Nat × Pos)) (bag : List Nat) (b : Board)
    (r c : Int) (h : ∀ ip ∈ eps, ¬(r = ip.2.r ∧ c = ip.2.c)) :
    cell (eps.foldl (fun bb ip => setCell bb ip.2.r ip.2.c (bag.get? ip.1)) b)
      r c = cell b r c := by
  induction eps generalizing b with
  | nil => rfl
  | cons ip rest ih =>
    rw [List.foldl_cons, ih _ (fun q hq => h q (List.mem_cons_of_mem _ hq))]
    apply cell_setCell_ne
    have hx := h ip (List.mem_cons_self _ _)
    by_cases hr : r = ip.2.r
    · exact Or.inr (fun hc => hx ⟨hr, hc⟩)
    · exact Or.inl hr

theorem validCell_clearFold (ps : List Pos) (b : Board) (p : Pos)
    (h : validCell b p) :
    validCell (ps.foldl (fun bb q => setCell bb q.r q.c none) b) p := by
  induction ps generalizing b with
  | nil => exact h
  | cons q rest ih => exact ih _ (validCell_setCell _ _ _ h)

theorem bag_length_eq (b : Board) (js : Nat → Nat)
    (h33 : ∀ v ∈ interiorValues b, v < TYPE_COUNT) :
    (fisherYates js (remainingBag b)).length = (occupiedPositions b).length := by
  rw [(fisherYates_perm js (remainingBag b)).length_eq,
    (remainingBag_perm b h33).length_eq, length_occupiedPositions]

/-- Pointwise occupancy preservation of `rerandomRemaining`. -/
theorem rerandom_occupancy (b : Board) (js : Nat → Nat)
    (h33 : ∀ v ∈ interiorValues b, v < TYPE_COUNT) (r c : Int) :
    cell (rerandomRemaining b js) r c = none ↔ cell b r c = none := by
  have hfinal : rerandomRemaining b js
      = ((occupiedPositions b).enum).foldl
          (fun bb ip => setCell bb ip.2.r ip.2.c
            ((fisherYates js (remainingBag b)).get? ip.1))
          ((occupiedPositions b).foldl
            (fun bb p => setCell bb p.r p.c none) b) := rfl
  by_cases hq : (⟨r, c⟩ : Pos) ∈ occupiedPositions b
  · obtain ⟨i, hi⟩ := List.mem_iff_get?.1 hq
    have hbne : cell b r c ≠ none := (mem_occupiedPositions.1 hq).2
    have hvalid : ∀ p ∈ occupiedPositions b,
        validCell ((occupiedPositions b).foldl
          (fun bb p => setCell bb p.r p.c none) b) p := by
      intro p hpmem
      apply validCell_clearFold
      have hcell := (mem_occupiedPositions.1 hpmem).2
      obtain ⟨h0, row, hrow, hc⟩ := cell_some_structure hcell
      exact ⟨h0, row, hrow, hc⟩
    have hfc : cell (rerandomRemaining b js) r c
        = (fisherYates js (remainingBag b)).get? (0 + i) := by
      rw [hfinal]
      exact cell_writeFold (fisherYates js (remainingBag b))
        (occupiedPositions b) 0 _ (occupiedPositions_nodup b) hvalid i ⟨r, c⟩ hi
    have hlt : i < (fisherYates js (remainingBag b)).length := by
      rw [bag_length_eq b js h33]
      rcases List.get?_eq_some.1 hi with ⟨hl, _⟩
      exact hl
    refine ⟨fun hn => ?_, fun hn => absurd hn hbne⟩
    rw [hfc, Nat.zero_add, List.get?_eq_get hlt] at hn
    exact absurd hn (by simp)
  · have h1 : cell (rerandomRemaining b js) r c = cell b r c := by
      rw [hfinal]
      rw [cell_enumFold_ne _ _ _ r c ?hne1, cell_clearFold_ne _ _ r c ?hne2]
      case hne1 =>
        intro ip hip hco
        have h2 : ip.2 ∈ occupiedPositions b := by
          have := List.mem_map_of_mem Prod.snd hip
          rwa [List.enum_map_snd] at this
        exact hq (@pos_eq_of_coords ⟨r, c⟩ ip.2 hco.1 hco.2 ▸ h2)
      case hne2 =>
        intro p hp hco
        exact hq (@pos_eq_of_coords ⟨r, c⟩ p hco.1 hco.2 ▸ hp)
    rw [h1]

theorem rerandom_cell_at (b : Board) (js : Nat → Nat) (i : Nat) (p' : Pos)
    (hi : (occupiedPositions b).get? i = some p') :
    cell (rerandomRemaining b js) p'.r p'.c
      = (fisherYates js (remainingBag b)).get? (0 + i) := by
  have hvalid : ∀ p ∈ occupiedPositions b,
      validCell ((occupiedPositions b).foldl
        (fun bb p => setCell bb p.r p.c none) b) p := by
    intro p hpmem
    apply validCell_clearFold
    have hcell := (mem_occupiedPositions.1 hpmem).2
    obtain ⟨h0, row, hrow, hc⟩ := cell_some_structure hcell
    exact ⟨h0, row, hrow, hc⟩
  exact cell_writeFold (fisherYates js (remainingBag b))
    (occupiedPositions b) 0 _ (occupiedPositions_nodup b) hvalid i p' hi

/-- The value list of the reshuffled board is exactly the shuffled bag. -/
theorem rerandom_values (b : Board) (js : Nat → Nat)
    (h33 : ∀ v ∈ interiorValues b, v < TYPE_COUNT) :
    interiorValues (rerandomRemaining b js) = fisherYates js (remainingBag b) := by
  have hlen : (occupiedPositions b).length
      = (fisherYates js (remainingBag b)).length := (bag_length_eq b js h33).symm
  rw [interiorValues_eq,
    filterMap_eq_filter_isSome_filterMap interiorCells
      (fun p => cell (rerandomRemaining b js) p.r p.c)]
  have hfilter : interiorCells.filter
      (fun p => (cell (rerandomRemaining b js) p.r p.c).isSome)
      = occupiedPositions b := by
    rw [occupiedPositions_eq]
    apply List.filter_congr
    intro p _
    have hiff := rerandom_occupancy b js h33 p.r p.c
    cases h1 : cell (rerandomRemaining b js) p.r p.c <;>
      cases h2 : cell b p.r p.c <;> simp_all
  rw [hfilter]
  have := filterMap_eq_drop (fisherYates js (remainingBag b))
    (occupiedPositions b) 0
    (fun p => cell (rerandomRemaining b js) p.r p.c)
    (fun i p' hi => rerandom_cell_at b js i p' hi)
    (by omega)
  rw [this, List.drop_zero]

/-- C7: `rerandomRemaining` preserves the multiset of non-null interior
values, keeps exactly the previously occupied cells occupied (and the
empty ones empty), and leaves the interior non-null count unchanged.
The hypothesis that all stored values are genuine tile types
(`< TYPE_COUNT`) mirrors the indexing of the JS `counts` array. -/
theorem rerandomRemaining_preserves (b : Board) (js : Nat → Nat)
    (h33 : ∀ v ∈ interiorValues b, v < TYPE_COUNT) :
    (∀ r c : Int, cell (rerandomRemaining b js) r c = none ↔ cell b r c = none) ∧
    (interiorValues (rerandomRemaining b js) : Multiset Nat)
      = (interiorValues b : Multiset Nat) ∧
    (interiorValues (rerandomRemaining b js)).length
      = (interiorValues b).length := by
  have hperm : (interiorValues (rerandomRemaining b js)).Perm (interiorValues b) := by
    rw [rerandom_values b js h33]
    exact (fisherYates_perm _ _).trans (remainingBag_perm b h33)
  exact ⟨rerandom_occupancy b js h33, Multiset.coe_eq_coe.2 hperm,
    hperm.length_eq⟩

/-- Closed instance of `rerandomRemaining_preserves` on a small board. -/
theorem rerandomRemaining_preserves_witness :
    (∀ v ∈ interiorValues [[none, none], [none, some 3]], v < TYPE_COUNT) ∧
      ((∀ r c : Int,
        cell (rerandomRemaining [[none, none], [none, some 3]] (fun i => i)) r c
            = none ↔ cell [[none, none], [none, some 3]] r c = none) ∧
      (interiorValues (rerandomRemaining [[none, none], [none, some 3]]
          (fun i => i)) : Multiset Nat)
        = (interiorValues [[none, none], [none, some 3]] : Multiset Nat) ∧
      (interiorValues (rerandomRemaining [[none, none], [none, some 3]]
          (fun i => i))).length
        = (interiorValues [[none, none], [none, some 3]]).length) :=
  ⟨by decide, rerandomRemaining_preserves _ _ (by decide)⟩

/-! ## The concrete deadlock scenario: evaluation facts -/

set_option exponentiation.threshold 10000 in
theorem deadlockPre_boardCleared : boardCleared deadlockPre = false := by
  decide

set_option exponentiation.threshold 10000 in
theorem deadlockPost_boardCleared : boardCleared deadlockPost = false := by
  decide

theorem deadlockPre_cells :
    cell deadlockPre 5 7 = some 16 ∧ cell deadlockPre 5 8 = some 16 := by
  decide

set_option maxRecDepth 20000 in
set_option maxHeartbeats 1000000 in
set_option exponentiation.threshold 10000 in
theorem deadlockPre_findPath :
    findPathLimitedTurns deadlockPre ⟨5, 7⟩ ⟨5, 8⟩ 2 =
      some [⟨5, 7⟩, ⟨5, 7⟩, ⟨5, 8⟩] := by
  decide

set_option maxRecDepth 20000 in
theorem deadlockPre_apply :
    applyLevel deadlockPre 1 ⟨5, 7⟩ ⟨5, 8⟩ = deadlockPost := by
  decide

set_option maxRecDepth 100000 in
set_option maxHeartbeats 4000000 in
set_option exponentiation.threshold 10000 in
/-- No same-type pair of `deadlockPost` is connectable within 2 turns;
checked type by type (`noMoveT0` .. `noMoveT32`), then assembled into
`hasAnyMove deadlockPost = false`. -/
theorem noMoveT0 :
    anyPairPath deadlockPost (tilePositions deadlockPost 0) = false := by
  decide

set_option maxRecDepth 100000 in
set_option maxHeartbeats 4000000 in
set_option exponentiation.threshold 10000 in
theorem noMoveT1 :
    anyPairPath deadlockPost (tilePositions deadlockPost 1) = false := by
  decide

set_option maxRecDepth 100000 in
set_option maxHeartbeats 4000000 in
set_option exponentiation.threshold 10000 in
theorem noMoveT2 :
    anyPairPath deadlockPost (tilePositions deadlockPost 2) = false := by
  decide

set_option maxRecDepth 100000 in
set_option maxHeartbeats 4000000 in
set_option exponentiation.threshold 10000 in
theorem noMoveT3 :
    anyPairPath deadlockPost (tilePositions deadlockPost 3) = false := by
  decide

set_option maxRecDepth 100000 in
set_option maxHeartbeats 4000000 in
set_option exponentiation.threshold 10000 in
theorem noMoveT4 :
    anyPairPath deadlockPost (tilePositions deadlockPost 4) = false := by
  decide

set_option maxRecDepth 100000 in
set_option maxHeartbeats 4000000 in
set_option exponentiation.threshold 10000 in
theorem noMoveT5 :
    anyPairPath deadlockPost (tilePositions deadlockPost 5) = false := by
  decide

set_option maxRecDepth 100000 in
set_option maxHeartbeats 4000000 in
set_option exponentiation.threshold 10000 in
theorem noMoveT6 :
    anyPairPath deadlockPost (tilePositions deadlockPost 6) = false := by
  decide

set_option maxRecDepth 100000 in
set_option maxHeartbeats 4000000 in
set_option exponentiation.threshold 10000 in
theorem noMoveT7 :
    anyPairPath deadlockPost (tilePositions deadlockPost 7) = false := by
  decide

set_option maxRecDepth 100000 in
set_option maxHeartbeats 4000000 in
set_option exponentiation.threshold 10000 in
theorem noMoveT8 :
    anyPairPath deadlockPost (tilePositions deadlockPost 8) = false := by
  decide

set_option maxRecDepth 100000 in
set_option maxHeartbeats 4000000 in
set_option exponentiation.threshold 10000 in
theorem noMoveT9 :
    anyPairPath deadlockPost (tilePositions deadlockPost 9) = false := by
  decide

set_option maxRecDepth 100000 in
set_option maxHeartbeats 4000000 in
set_option exponentiation.threshold 10000 in
theorem noMoveT10 :
    anyPairPath deadlockPost (tilePositions deadlockPost 10) = false := by
  decide

set_option maxRecDepth 100000 in
set_option maxHeartbeats 4000000 in
set_option exponentiation.threshold 10000 in
theorem noMoveT11 :
    anyPairPath deadlockPost (tilePositions deadlockPost 11) = false := by
  decide

set_option maxRecDepth 100000 in
set_option maxHeartbeats 4000000 in
set_option exponentiation.threshold 10000 in
theorem noMoveT12 :
    anyPairPath deadlockPost (tilePositions deadlockPost 12) = false := by
  decide

set_option maxRecDepth 100000 in
set_option maxHeartbeats 4000000 in
set_option exponentiation.threshold 10000 in
theorem noMoveT13 :
    anyPairPath deadlockPost (tilePositions deadlockPost 13) = false := by
  decide

set_option maxRecDepth 100000 in
set_option maxHeartbeats 4000000 in
set_option exponentiation.threshold 10000 in
theorem noMoveT14 :
    anyPairPath deadlockPost (tilePositions deadlockPost 14) = false := by
  decide

set_option maxRecDepth 100000 in
set_option maxHeartbeats 4000000 in
set_option exponentiation.threshold 10000 in
theorem noMoveT15 :
    anyPairPath deadlockPost (tilePositions deadlockPost 15) = false := by
  decide

set_option maxRecDepth 100000 in
set_option maxHeartbeats 4000000 in
set_option exponentiation.threshold 10000 in
theorem noMoveT16 :
    anyPairPath deadlockPost (tilePositions deadlockPost 16) = false := by
  decide

set_option maxRecDepth 100000 in
set_option maxHeartbeats 4000000 in
set_option exponentiation.threshold 10000 in
theorem noMoveT17 :
    anyPairPath deadlockPost (tilePositions deadlockPost 17) = false := by
  decide

set_option maxRecDepth 100000 in
set_option maxHeartbeats 4000000 in
set_option exponentiation.threshold 10000 in
theorem noMoveT18 :
    anyPairPath deadlockPost (tilePositions deadlockPost 18) = false := by
  decide

set_option maxRecDepth 100000 in
set_option maxHeartbeats 4000000 in
set_option exponentiation.threshold 10000 in
theorem noMoveT19 :
    anyPairPath deadlockPost (tilePositions deadlockPost 19) = false := by
  decide

set_option maxRecDepth 100000 in
set_option maxHeartbeats 4000000 in
set_option exponentiation.threshold 10000 in
theorem noMoveT20 :
    anyPairPath deadlockPost (tilePositions deadlockPost 20) = false := by
  decide

set_option maxRecDepth 100000 in
set_option maxHeartbeats 4000000 in
set_option exponentiation.threshold 10000 in
theorem noMoveT21 :
    anyPairPath deadlockPost (tilePositions deadlockPost 21) = false := by
  decide

set_option maxRecDepth 100000 in
set_option maxHeartbeats 4000000 in
set_option exponentiation.threshold 10000 in
theorem noMoveT22 :
    anyPairPath deadlockPost (tilePositions deadlockPost 22) = false := by
  decide

set_option maxRecDepth 100000 in
set_option maxHeartbeats 4000000 in
set_option exponentiation.threshold 10000 in
theorem noMoveT23 :
    anyPairPath deadlockPost (tilePositions deadlockPost 23) = false := by
  decide

set_option maxRecDepth 100000 in
set_option maxHeartbeats 4000000 in
set_option exponentiation.threshold 10000 in
theorem noMoveT24 :
    anyPairPath deadlockPost (tilePositions deadlockPost 24) = false := by
  decide

set_option maxRecDepth 100000 in
set_option maxHeartbeats 4000000 in
set_option exponentiation.threshold 10000 in
theorem noMoveT25 :
    anyPairPath deadlockPost (tilePositions deadlockPost 25) = false := by
  decide

set_option maxRecDepth 100000 in
set_option maxHeartbeats 4000000 in
set_option exponentiation.threshold 10000 in
theorem noMoveT26 :
    anyPairPath deadlockPost (tilePositions deadlockPost 26) = false := by
  decide

set_option maxRecDepth 100000 in
set_option maxHeartbeats 4000000 in
set_option exponentiation.threshold 10000 in
theorem noMoveT27 :
    anyPairPath deadlockPost (tilePositions deadlockPost 27) = false := by
  decide

set_option maxRecDepth 100000 in
set_option maxHeartbeats 4000000 in
set_option exponentiation.threshold 10000 in
theorem noMoveT28 :
    anyPairPath deadlockPost (tilePositions deadlockPost 28) = false := by
  decide

set_option maxRecDepth 100000 in
set_option maxHeartbeats 4000000 in
set_option exponentiation.threshold 10000 in
theorem noMoveT29 :
    anyPairPath deadlockPost (tilePositions deadlockPost 29) = false := by
  decide

set_option maxRecDepth 100000 in
set_option maxHeartbeats 4000000 in
set_option exponentiation.threshold 10000 in
theorem noMoveT30 :
    anyPairPath deadlockPost (tilePositions deadlockPost 30) = false := by
  decide

set_option maxRecDepth 100000 in
set_option maxHeartbeats 4000000 in
set_option exponentiation.threshold 10000 in
theorem noMoveT31 :
    anyPairPath deadlockPost (tilePositions deadlockPost 31) = false := by
  decide

set_option maxRecDepth 100000 in
set_option maxHeartbeats 4000000 in
set_option exponentiation.threshold 10000 in
theorem noMoveT32 :
    anyPairPath deadlockPost (tilePositions deadlockPost 32) = false := by
  decide

/-- The board left by the deadlock reshuffle admits no move at all. -/
theorem deadlockPost_noMove : hasAnyMove deadlockPost = false := by
  rw [hasAnyMove, show List.range TYPE_COUNT = [0, 1, 2, 3, 4, 5, 6, 7, 8, 9, 10, 11, 12, 13, 14, 15, 16, 17, 18, 19, 20, 21, 22, 23, 24, 25, 26, 27, 28, 29, 30, 31, 32] from rfl]
  simp only [List.any_cons, List.any_nil, noMoveT0, noMoveT1, noMoveT2, noMoveT3, noMoveT4, noMoveT5, noMoveT6, noMoveT7, noMoveT8, noMoveT9, noMoveT10, noMoveT11, noMoveT12, noMoveT13, noMoveT14, noMoveT15, noMoveT16, noMoveT17, noMoveT18, noMoveT19, noMoveT20, noMoveT21, noMoveT22, noMoveT23, noMoveT24, noMoveT25, noMoveT26, noMoveT27, noMoveT28, noMoveT29, noMoveT30, noMoveT31, noMoveT32,
    Bool.or_false, Bool.false_or]

set_option maxRecDepth 100000 in
set_option maxHeartbeats 1000000 in
theorem deadlockPost_reshuffle :
    rerandomRemaining deadlockPost dlJs = deadlockPost := by
  decide

set_option maxRecDepth 20000 in
theorem deadlockPost_count : (interiorValues deadlockPost).length = 142 := by
  decide

/-! ## Association-list lemmas -/

theorem assocFind_set {α : Type} (m : List (String × α)) (k : String) (v : α) :
    ((assocSet m k v).find? fun kv => kv.1 == k) = some (k, v) := by
  rw [assocSet]
  split
  next hany =>
    induction m with
    | nil => simp at hany
    | cons kv rest ih =>
      simp only [List.map_cons]
      by_cases h : kv.1 = k
      · rw [List.find?_cons_of_pos _ (by simp [h])]
        simp [h]
      · rw [if_neg (by simp [h]), List.find?_cons_of_neg _ (by simp [h])]
        apply ih
        simpa [h] using hany
  next hany =>
    induction m with
    | nil => simp [List.find?]
    | cons kv rest ih =>
      have h : ¬ (kv.1 = k) := by
        intro h
        exact hany (by simp [List.any_cons, h])
      rw [List.cons_append, List.find?_cons_of_neg _ (by simp [h])]
      apply ih
      intro h2
      exact hany (by simp [List.any_cons]; right; simpa using h2)

theorem assocGet_set_self {α : Type} (m : List (String × α)) (k : String)
    (v : α) : assocGet (assocSet m k v) k = some v := by
  rw [assocGet, assocFind_set]
  rfl

theorem any_of_assocGet {α : Type} {m : List (String × α)} {k : String}
    {v : α} (h : assocGet m k = some v) :
    (m.any fun kv => kv.1 == k) = true := by
  rw [assocGet] at h
  rcases Option.map_eq_some'.1 h with ⟨kv, hfind, _⟩
  have hp := List.find?_some hfind
  exact List.any_eq_true.2 ⟨kv, List.mem_of_find?_eq_some hfind, hp⟩

theorem length_assocSet_of_get {α : Type} {m : List (String × α)} {k : String}
    {w : α} (h : assocGet m k = some w) (v : α) :
    (assocSet m k v).length = m.length := by
  rw [assocSet, if_pos (any_of_assocGet h), List.length_map]

theorem mem_assocSet_key {α : Type} {m : List (String × α)} {k : String}
    {v : α} {kv' : String × α} (h : kv' ∈ assocSet m k v) (hk : kv'.1 = k) :
    kv' = (k, v) := by
  rw [assocSet] at h
  split at h
  · rcases List.mem_map.1 h with ⟨kv, _, hEq⟩
    by_cases hh : kv.1 = k
    · rw [if_pos (by simp [hh])] at hEq
      exact hEq.symm
    · rw [if_neg (by simp [hh])] at hEq
      exact absurd (hEq ▸ hk) hh
  next hany =>
    rcases List.mem_append.1 h with hm | hm
    · exact absurd (List.any_eq_true.2 ⟨kv', hm, by simp [hk]⟩) hany
    · simpa using hm

theorem assocSet_no_op {α : Type} {m : List (String × α)} {k : String}
    {v : α} (hany : (m.any fun kv => kv.1 == k) = true)
    (h : ∀ kv ∈ m, kv.1 = k → kv = (k, v)) : assocSet m k v = m := by
  rw [assocSet, if_pos hany]
  conv_rhs => rw [← List.map_id m]
  apply List.map_congr_left
  intro kv hm
  by_cases hh : kv.1 = k
  · rw [if_pos (by simp [hh]), h kv hm hh]
    rfl
  · rw [if_neg (by simp [hh])]
    rfl

theorem assocGet_del_self {α : Type} (m : List (String × α)) (k : String) :
    assocGet (assocDel m k) k = none := by
  rw [assocGet, Option.map_eq_none', List.find?_eq_none]
  intro kv hm
  have := (List.mem_filter.1 hm).2
  simpa using this

theorem assocGet_del_none {α : Type} {m : List (String × α)} {k : String}
    (h : assocGet m k = none) (k' : String) :
    assocGet (assocDel m k') k = none := by
  rw [assocGet, Option.map_eq_none', List.find?_eq_none]
  rw [assocGet, Option.map_eq_none', List.find?_eq_none] at h
  intro kv hm
  exact h kv (List.mem_of_mem_filter hm)

theorem foldl_del_none {α β : Type} (l : List (String × β))
    (m : List (String × α)) (k : String)
    (h : assocGet m k = none ∨ k ∈ l.map Prod.fst) :
    assocGet (l.foldl (fun mm kv => assocDel mm kv.1) m) k = none := by
  induction l generalizing m with
  | nil => simpa using h.resolve_right (by simp)
  | cons kv rest ih =>
    rw [List.foldl_cons]
    apply ih
    rcases h with h | h
    · exact Or.inl (assocGet_del_none h kv.1)
    · rcases List.mem_map.1 h with ⟨kv2, hm2, hk2⟩
      rcases List.mem_cons.1 hm2 with rfl | hm2
      · exact Or.inl (hk2 ▸ assocGet_del_self m kv2.1)
      · exact Or.inr (List.mem_map.2 ⟨kv2, hm2, hk2⟩)

theorem contains_filter_ne_self (l : List String) (k : String) :
    (l.filter fun x => x != k).contains k = false := by
  rw [List.contains, Bool.eq_false_iff]
  intro h
  have := List.mem_filter.1 (List.elem_iff.1 h)
  simpa using this.2

theorem filter_ne_of_not_contains {l : List String} {k : String}
    (h : l.contains k = false) : (l.filter fun x => x != k) = l := by
  apply List.filter_eq_self.2
  intro a ha
  simp only [bne_iff_ne, ne_eq, decide_eq_true_eq]
  intro hak
  subst hak
  simp at h
  exact h ha

/-- Evaluation of `gameMove` through its success-then-reshuffle branch:
with an `in_progress` room, matchable equal non-null cells, a found
path, and a post-collapse board `b1` that is neither cleared nor
movable, the handler stores `rerandomRemaining b1 js` and broadcasts the
match followed by the reshuffled board. -/
theorem gameMove_shuffleBranch (js : Nat → Nat) (room : Room) (cid : String)
    (pa pb : Pos) (lb : List (String × Nat)) (path : List Pos) (t : Nat)
    (L : Nat) (b1 b2 : Board)
    (hst : room.state = RoomState.in_progress)
    (hcl : boardCleared room.board = false)
    (hv1 : cell room.board pa.r pa.c = some t)
    (hv2 : cell room.board pb.r pb.c = some t)
    (hfp : findPathLimitedTurns room.board pa pb 2 = some path)
    (hlv : (if room.level = 0 then 1 else room.level) = L)
    (hb1 : applyLevel room.board L pa pb = b1)
    (hcl1 : boardCleared b1 = false)
    (hnm : hasAnyMove b1 = false)
    (hb2 : rerandomRemaining b1 js = b2) :
    gameMove js (some room) cid (some pa) (some pb) lb =
      (Ack.ok,
       some { room with
              board := b2,
              players := (scoreUpdate room.players cid lb).1 },
       (scoreUpdate room.players cid lb).2,
       [Event.matched pa pb path b1, Event.shuffled b2]) := by
  subst hlv
  subst hb1
  subst hb2
  simp [gameMove, hst, hcl, hv1, hv2, hfp, hcl1, hnm]

/-- Counterexample to the second half of the claim that a deadlock
reshuffle yields a movable board (or only 2 tiles): on `deadlockRoom`
the move (5,7)-(5,8) succeeds, does not clear the board, triggers the
reshuffle, and the reshuffled board that is stored and broadcast still
has no available move with 142 tiles remaining. -/
theorem gameMove_reshuffle_deadlock_cex :
    gameMove dlJs (some deadlockRoom) "h" (some ⟨5, 7⟩) (some ⟨5, 8⟩) [] =
      (Ack.ok, some deadlockRoomAfter, [("H", 10)],
       [Event.matched ⟨5, 7⟩ ⟨5, 8⟩ [⟨5, 7⟩, ⟨5, 7⟩, ⟨5, 8⟩] deadlockPost,
        Event.shuffled deadlockPost]) ∧
    hasAnyMove deadlockRoomAfter.board = false ∧
    2 < (interiorValues deadlockRoomAfter.board).length := by
  refine ⟨?_, deadlockPost_noMove, ?_⟩
  · rw [gameMove_shuffleBranch dlJs deadlockRoom "h" ⟨5, 7⟩ ⟨5, 8⟩ []
      [⟨5, 7⟩, ⟨5, 7⟩, ⟨5, 8⟩] 16 1 deadlockPost deadlockPost rfl
      deadlockPre_boardCleared deadlockPre_cells.1 deadlockPre_cells.2
      deadlockPre_findPath rfl deadlockPre_apply deadlockPost_boardCleared
      deadlockPost_noMove deadlockPost_reshuffle]
    rfl
  · rw [show deadlockRoomAfter.board = deadlockPost from rfl, deadlockPost_count]
    norm_num

/-- C5 (amended): after a successful move that does not clear the board,
if the post-collapse board has no available move, the handler applies
`rerandomRemaining` exactly once before broadcasting, stores the
reshuffled board, and the reshuffle notification carries exactly that
board; no further guarantee holds for the reshuffled board (it may
itself be deadlocked with far more than 2 tiles remaining, see the
counterexample). -/
theorem gameMove_deadlock_single_reshuffle (js : Nat → Nat) (room : Room)
    (cid : String) (pa pb : Pos) (lb : List (String × Nat)) (path : List Pos)
    (t L : Nat) (b1 : Board)
    (hst : room.state = RoomState.in_progress)
    (hcl : boardCleared room.board = false)
    (hv1 : cell room.board pa.r pa.c = some t)
    (hv2 : cell room.board pb.r pb.c = some t)
    (hfp : findPathLimitedTurns room.board pa pb 2 = some path)
    (hlv : (if room.level = 0 then 1 else room.level) = L)
    (hb1 : applyLevel room.board L pa pb = b1)
    (hcl1 : boardCleared b1 = false)
    (hnm : hasAnyMove b1 = false) :
    ∃ room' lb',
      gameMove js (some room) cid (some pa) (some pb) lb =
        (Ack.ok, some room', lb',
         [Event.matched pa pb path b1,
          Event.shuffled (rerandomRemaining b1 js)]) ∧
      room'.board = rerandomRemaining b1 js :=
  ⟨_, _,
   gameMove_shuffleBranch js room cid pa pb lb path t L b1
     (rerandomRemaining b1 js) hst hcl hv1 hv2 hfp hlv hb1 hcl1 hnm rfl,
   rfl⟩

/-- `gameMove_deadlock_single_reshuffle` at the concrete deadlock
scenario. -/
theorem gameMove_deadlock_single_reshuffle_witness :
    ∃ room' lb',
      gameMove dlJs (some deadlockRoom) "h" (some ⟨5, 7⟩) (some ⟨5, 8⟩) [] =
        (Ack.ok, some room', lb',
         [Event.matched ⟨5, 7⟩ ⟨5, 8⟩ [⟨5, 7⟩, ⟨5, 7⟩, ⟨5, 8⟩] deadlockPost,
          Event.shuffled (rerandomRemaining deadlockPost dlJs)]) ∧
      room'.board = rerandomRemaining deadlockPost dlJs :=
  gameMove_deadlock_single_reshuffle dlJs deadlockRoom "h" ⟨5, 7⟩ ⟨5, 8⟩ []
    [⟨5, 7⟩, ⟨5, 7⟩, ⟨5, 8⟩] 16 1 deadlockPost rfl
    deadlockPre_boardCleared deadlockPre_cells.1 deadlockPre_cells.2
    deadlockPre_findPath rfl deadlockPre_apply deadlockPost_boardCleared
    deadlockPost_noMove

/-- C4: every precondition failure of the `game:move` handler — missing
room, room not `in_progress`, missing coordinate, board already
cleared, cells not equal non-null values, or no ≤2-turn path — is
answered by the structured failure acknowledgment naming that
validation failure, returns the room (board, players' scores, state,
level) and the global leaderboard entirely unchanged, and emits no
broadcast; the modelled handler is a total function, so no uncaught
exception is possible. -/
theorem gameMove_rejections (js : Nat → Nat) (cid : String)
    (a b : Option Pos) (lb : List (String × Nat)) :
    (gameMove js none cid a b lb = (Ack.fail "Room not found", none, lb, [])) ∧
    (∀ room : Room, room.state ≠ RoomState.in_progress →
      gameMove js (some room) cid a b lb =
        (Ack.fail "Game not in progress", some room, lb, [])) ∧
    (∀ room : Room, room.state = RoomState.in_progress →
      a = none ∨ b = none →
      gameMove js (some room) cid a b lb =
        (Ack.fail "Invalid coords", some room, lb, [])) ∧
    (∀ room : Room, ∀ pa pb : Pos, room.state = RoomState.in_progress →
      a = some pa → b = some pb → boardCleared room.board = true →
      gameMove js (some room) cid a b lb =
        (Ack.fail "Board already cleared", some room, lb, [])) ∧
    (∀ room : Room, ∀ pa pb : Pos, room.state = RoomState.in_progress →
      a = some pa → b = some pb → boardCleared room.board = false →
      (cell room.board pa.r pa.c = none ∨ cell room.board pb.r pb.c = none ∨
        cell room.board pa.r pa.c ≠ cell room.board pb.r pb.c) →
      gameMove js (some room) cid a b lb =
        (Ack.fail "Not matchable", some room, lb, [])) ∧
    (∀ room : Room, ∀ pa pb : Pos, room.state = RoomState.in_progress →
      a = some pa → b = some pb → boardCleared room.board = false →
      ¬(cell room.board pa.r pa.c = none ∨ cell room.board pb.r pb.c = none ∨
        cell room.board pa.r pa.c ≠ cell room.board pb.r pb.c) →
      findPathLimitedTurns room.board pa pb 2 = none →
      gameMove js (some room) cid a b lb =
        (Ack.fail "No path", some room, lb, [])) := by
  refine ⟨rfl, ?_, ?_, ?_, ?_, ?_⟩
  · intro room hst
    simp [gameMove, hst]
  · intro room hst hab
    rcases hab with rfl | rfl
    · simp [gameMove, hst]
    · cases a <;> simp [gameMove, hst]
  · intro room pa pb hst ha hb hcl
    subst ha
    subst hb
    simp [gameMove, hst, hcl]
  · intro room pa pb hst ha hb hcl hor
    subst ha
    subst hb
    simp only [gameMove]
    rw [if_neg (by simp [hst]), hcl, if_neg (by simp), if_pos hor]
  · intro room pa pb hst ha hb hcl hor hfp
    subst ha
    subst hb
    simp only [gameMove]
    rw [if_neg (by simp [hst]), hcl, if_neg (by simp), if_neg hor, hfp]

set_option maxRecDepth 20000 in
set_option exponentiation.threshold 10000 in
/-- `gameMove_rejections` at concrete inputs, one per rejection
branch. -/
theorem gameMove_rejections_witness :
    (gameMove (fun _ => 0) none "c" none none [] =
      (Ack.fail "Room not found", none, [], [])) ∧
    (gameMove (fun _ => 0) (some rejRoomLobby) "c" (some ⟨1, 1⟩)
        (some ⟨1, 2⟩) [] =
      (Ack.fail "Game not in progress", some rejRoomLobby, [], [])) ∧
    (gameMove (fun _ => 0) (some rejRoom) "c" none (some ⟨1, 1⟩) [] =
      (Ack.fail "Invalid coords", some rejRoom, [], [])) ∧
    (gameMove (fun _ => 0) (some rejRoomCleared) "c" (some ⟨1, 1⟩)
        (some ⟨1, 2⟩) [] =
      (Ack.fail "Board already cleared", some rejRoomCleared, [], [])) ∧
    (gameMove (fun _ => 0) (some rejRoom) "c" (some ⟨1, 1⟩) (some ⟨0, 0⟩) [] =
      (Ack.fail "Not matchable", some rejRoom, [], [])) ∧
    (gameMove (fun _ => 0) (some rejRoom) "c" (some ⟨1, 1⟩) (some ⟨3, 2⟩) [] =
      (Ack.fail "No path", some rejRoom, [], [])) :=
  ⟨(gameMove_rejections (fun _ => 0) "c" none none []).1,
   (gameMove_rejections (fun _ => 0) "c" (some ⟨1, 1⟩) (some ⟨1, 2⟩) []).2.1
     rejRoomLobby (by decide),
   (gameMove_rejections (fun _ => 0) "c" none (some ⟨1, 1⟩) []).2.2.1
     rejRoom rfl (Or.inl rfl),
   (gameMove_rejections (fun _ => 0) "c" (some ⟨1, 1⟩) (some ⟨1, 2⟩)
       []).2.2.2.1 rejRoomCleared ⟨1, 1⟩ ⟨1, 2⟩ rfl rfl rfl (by decide),
   (gameMove_rejections (fun _ => 0) "c" (some ⟨1, 1⟩) (some ⟨0, 0⟩)
       []).2.2.2.2.1 rejRoom ⟨1, 1⟩ ⟨0, 0⟩ rfl rfl rfl (by decide) (by decide),
   (gameMove_rejections (fun _ => 0) "c" (some ⟨1, 1⟩) (some ⟨3, 2⟩)
       []).2.2.2.2.2 rejRoom ⟨1, 1⟩ ⟨3, 2⟩ rfl rfl rfl (by decide) (by decide)
     (by decide)⟩

theorem rejoinRoom_players (room : Room) (cid sid : String)
    (nm : Option String) (player : Player) :
    (rejoinRoom room cid sid nm player).players =
      assocSet room.players cid (rejoinPlayer player sid nm) := by
  rw [rejoinRoom]
  split <;> rfl

theorem rejoinRoom_timers (room : Room) (cid sid : String)
    (nm : Option String) (player : Player) :
    (rejoinRoom room cid sid nm player).disconnectTimers.contains cid = false := by
  rw [rejoinRoom]
  split
  next h => exact contains_filter_ne_self _ _
  next h => simpa using h

theorem joinRoom_eval (st : ServerState) (cid sid rid : String)
    (nm : Option String) (room : Room) (player : Player)
    (hr : assocGet st.rooms rid = some room)
    (hp : assocGet room.players cid = some player)
    (hc : assocGet st.clientToRoom cid = some rid ∨
          assocGet st.clientToRoom cid = none) :
    joinRoom st cid sid rid nm =
      ({ st with
         rooms := assocSet st.rooms rid (rejoinRoom room cid sid nm player),
         clientToRoom := assocSet st.clientToRoom cid rid },
       Ack.ok, [Event.playerRejoined cid]) := by
  rcases hc with hc | hc <;>
    simp [joinRoom, rejoinRoom, rejoinPlayer, hr, hp, hc]

theorem rejoinPlayer_idem (player : Player) (sid : String)
    (nm : Option String) :
    rejoinPlayer (rejoinPlayer player sid nm) sid nm = rejoinPlayer player sid nm := by
  cases nm <;> rfl

theorem assocSet_get_no_op {α : Type} {m : List (String × α)} {k : String}
    {v : α} (h : assocGet (assocSet m k v) k = some v)
    (hm : ∀ kv ∈ assocSet m k v, kv.1 = k → kv = (k, v)) :
    assocSet (assocSet m k v) k v = assocSet m k v :=
  assocSet_no_op (any_of_assocGet h) hm

/-- C8: a reconnect of an identity already present in the room's player
map cancels the pending disconnect timer, updates the existing entry in
place (connected, new socket, name only if given) with the score kept
and no duplicate entry, and is idempotent: a second identical rejoin
leaves the server state exactly unchanged. -/
theorem joinRoom_reconnect_idempotent (st : ServerState) (cid sid rid : String)
    (nm : Option String) (room : Room) (player : Player)
    (hr : assocGet st.rooms rid = some room)
    (hp : assocGet room.players cid = some player)
    (hc : assocGet st.clientToRoom cid = some rid ∨
          assocGet st.clientToRoom cid = none) :
    ∃ st' room',
      joinRoom st cid sid rid nm = (st', Ack.ok, [Event.playerRejoined cid]) ∧
      assocGet st'.rooms rid = some room' ∧
      room'.disconnectTimers.contains cid = false ∧
      assocGet room'.players cid =
        some { player with
               connected := true, socketId := some sid,
               name := nm.getD player.name } ∧
      room'.players.length = room.players.length ∧
      (joinRoom st' cid sid rid nm).1 = st' := by
  refine ⟨_, rejoinRoom room cid sid nm player,
    joinRoom_eval st cid sid rid nm room player hr hp hc, ?_, ?_, ?_, ?_, ?_⟩
  · exact assocGet_set_self _ _ _
  · exact rejoinRoom_timers room cid sid nm player
  · rw [rejoinRoom_players, assocGet_set_self]
    rfl
  · rw [rejoinRoom_players, length_assocSet_of_get hp]
  · -- a second identical rejoin is the identity on the state
    have hr' : assocGet
        (assocSet st.rooms rid (rejoinRoom room cid sid nm player)) rid =
        some (rejoinRoom room cid sid nm player) := assocGet_set_self _ _ _
    have hp' : assocGet (rejoinRoom room cid sid nm player).players cid =
        some (rejoinPlayer player sid nm) := by
      rw [rejoinRoom_players, assocGet_set_self]
    have hc' : assocGet (assocSet st.clientToRoom cid rid) cid = some rid :=
      assocGet_set_self _ _ _
    rw [joinRoom_eval _ cid sid rid nm _ _ hr' hp' (Or.inl hc')]
    -- the inner room is unchanged by the second rejoin
    have hroom : rejoinRoom (rejoinRoom room cid sid nm player) cid sid nm
        (rejoinPlayer player sid nm) = rejoinRoom room cid sid nm player := by
      rw [rejoinRoom]
      rw [show (rejoinRoom room cid sid nm player).disconnectTimers.contains cid
            = false from rejoinRoom_timers room cid sid nm player]
      simp only [Bool.false_eq_true, if_false]
      have hpl : assocSet (rejoinRoom room cid sid nm player).players cid
          (rejoinPlayer (rejoinPlayer player sid nm) sid nm) =
          (rejoinRoom room cid sid nm player).players := by
        rw [rejoinPlayer_idem, rejoinRoom_players]
        exact assocSet_get_no_op (assocGet_set_self _ _ _)
          (fun kv hm hk => mem_assocSet_key hm hk)
      rw [hpl]
    rw [hroom]
    -- both outer map writes are no-ops
    have hrooms : assocSet (assocSet st.rooms rid (rejoinRoom room cid sid nm player))
        rid (rejoinRoom room cid sid nm player) =
        assocSet st.rooms rid (rejoinRoom room cid sid nm player) :=
      assocSet_get_no_op (assocGet_set_self _ _ _)
        (fun kv hm hk => mem_assocSet_key hm hk)
    have hctr : assocSet (assocSet st.clientToRoom cid rid) cid rid =
        assocSet st.clientToRoom cid rid :=
      assocSet_get_no_op (assocGet_set_self _ _ _)
        (fun kv hm hk => mem_assocSet_key hm hk)
    rw [hrooms, hctr]

/-- `joinRoom_reconnect_idempotent` at a concrete reconnect: player
`c` (score 7, disconnected, timer pending) rejoins room `R` with a new
socket and name. -/
theorem joinRoom_reconnect_idempotent_witness :
    (assocGet c8State.rooms "R" = some c8Room ∧
     assocGet c8Room.players "c" = some c8Player ∧
     assocGet c8State.clientToRoom "c" = some "R") ∧
    ∃ st' room',
      joinRoom c8State "c" "s2" "R" (some "M") =
        (st', Ack.ok, [Event.playerRejoined "c"]) ∧
      assocGet st'.rooms "R" = some room' ∧
      room'.disconnectTimers.contains "c" = false ∧
      assocGet room'.players "c" =
        some { c8Player with
               connected := true, socketId := some "s2",
               name := (some "M").getD c8Player.name } ∧
      room'.players.length = c8Room.players.length ∧
      (joinRoom st' "c" "s2" "R" (some "M")).1 = st' :=
  ⟨⟨rfl, rfl, rfl⟩,
   joinRoom_reconnect_idempotent c8State "c" "s2" "R" (some "M") c8Room
     c8Player rfl rfl (Or.inl rfl)⟩

/-- C9: the grace-timer finalizer is guarded at fire time — it does
nothing when its room is gone, its player entry is gone, or the player
has reconnected (`connected` again true); when the guards hold and the
disconnecting client was host, the room is broadcast as closed and
deleted and every member's `clientToRoom` association is cleared. -/
theorem fireDisconnectTimer_guarded (st : ServerState)
    (roomId clientId : String) (wasHost : Bool) :
    (∀ room p, assocGet st.rooms roomId = some room →
      assocGet room.players clientId = some p → p.connected = true →
      fireDisconnectTimer st roomId clientId wasHost = (st, [])) ∧
    (assocGet st.rooms roomId = none →
      fireDisconnectTimer st roomId clientId wasHost = (st, [])) ∧
    (∀ room, assocGet st.rooms roomId = some room →
      assocGet room.players clientId = none →
      fireDisconnectTimer st roomId clientId wasHost = (st, [])) ∧
    (∀ room p, assocGet st.rooms roomId = some room →
      assocGet room.players clientId = some p → p.connected = false →
      wasHost = true →
      assocGet (fireDisconnectTimer st roomId clientId wasHost).1.rooms
          roomId = none ∧
      (fireDisconnectTimer st roomId clientId wasHost).2 =
          [Event.roomClosed] ∧
      (∀ kv ∈ room.players,
        assocGet (fireDisconnectTimer st roomId clientId wasHost).1.clientToRoom
          kv.1 = none)) := by
  refine ⟨?_, ?_, ?_, ?_⟩
  · intro room p hr hp hc
    simp [fireDisconnectTimer, hr, hp, hc]
  · intro hr
    simp [fireDisconnectTimer, hr]
  · intro room hr hp
    simp [fireDisconnectTimer, hr, hp]
  · intro room p hr hp hc hw
    subst hw
    have hfire : fireDisconnectTimer st roomId clientId true =
        ({ st with
           clientToRoom :=
             (assocDel room.players clientId).foldl
               (fun m kv => assocDel m kv.1)
               (assocDel st.clientToRoom clientId),
           rooms :=
             assocDel
               (assocSet st.rooms roomId
                 { room with players := assocDel room.players clientId })
               roomId },
         [Event.roomClosed]) := by
      simp [fireDisconnectTimer, hr, hp, hc]
    rw [hfire]
    refine ⟨assocGet_del_self _ _, rfl, ?_⟩
    intro kv hkv
    dsimp only
    by_cases hk : kv.1 = clientId
    · apply foldl_del_none
      exact Or.inl (hk ▸ assocGet_del_self _ _)
    · apply foldl_del_none
      right
      apply List.mem_map.2
      refine ⟨kv, ?_, rfl⟩
      rw [assocDel]
      exact List.mem_filter.2 ⟨hkv, by simpa using hk⟩

/-- `fireDisconnectTimer_guarded` at the concrete scenario: host `h`
of `c9Room` is still disconnected when the timer fires, so the room is
closed and deleted and both members' associations are cleared. -/
theorem fireDisconnectTimer_guarded_witness :
    (assocGet c9State.rooms "R" = some c9Room ∧
     assocGet c9Room.players "h" = some { dlHost with connected := false } ∧
     ({ dlHost with connected := false } : Player).connected = false) ∧
    (assocGet (fireDisconnectTimer c9State "R" "h" true).1.rooms "R" = none ∧
     (fireDisconnectTimer c9State "R" "h" true).2 = [Event.roomClosed] ∧
     (∀ kv ∈ c9Room.players,
       assocGet (fireDisconnectTimer c9State "R" "h" true).1.clientToRoom
         kv.1 = none)) :=
  ⟨⟨rfl, rfl, rfl⟩,
   (fireDisconnectTimer_guarded c9State "R" "h" true).2.2.2 c9Room
     { dlHost with connected := false } rfl rfl rfl rfl⟩
